import Mathlib

/-!
# Witness relay engine of `sifnode` (`cmd/ebrelayer`)

A shallow embedding of

* `cmd/ebrelayer/txs/parser.go`: `BurnLockEventToCosmosMsg`,
  `EthereumEventToEthBridgeClaim`, `isZeroAddress`;
* `cmd/ebrelayer/relayer/cosmos.go`: `getOracleClaimType`,
  `witnessSignProphecyID`, `ProcessLockBurnWithScope`, `CheckNonceAndProcess`,
  `GetWitnessLockBurnNonceFromCosmos`, `GetGlobalNonceBlockNumberFromCosmos`,
  `MessageProcessed`.

Conventions.

* A Go `string` and a Go `[]byte` are both finite byte sequences; they are
  embedded as `List UInt8` (a `nil` slice and an empty slice are the same
  list).  The conversions `string(b)` and `[]byte(s)` are the identity.
* A Go `error` made by `errors.New(text)` is embedded as `some text`, the
  `nil` error as `none`.  A Go function returning `(T, error)` returns a pair.
* Fixed-width integers are `Nat`/`Int` with the wrap-around written out.
* Functions and constants of other packages that are not part of the two
  files (key names, `IsValid`, bech32 decoding, hashing, signing, the RPC
  client) are parameters, gathered in the structures below.
-/

namespace Sifnode

/-- A Go `string`: an immutable sequence of bytes. -/
abbrev GoString := List UInt8

/-- A Go `[]byte`. -/
abbrev Bytes := List UInt8

/-- The bytes of a source-code string literal (Go sources are UTF-8). -/
def lit (s : String) : GoString := s.toUTF8.data.toList

/-- A Go `error`: `none` is `nil`, `some text` is an error with that text. -/
abbrev GoError := Option String

/-! ## `strconv.ParseUint(s, 10, bitSize)` (Go standard library) -/

/-- The helper `lower` of `strconv`: `c | ('x' - 'X')`. -/
def strconvLower (c : UInt8) : UInt8 := c ||| 0x20

/-- The value `d` that the loop of `strconv.ParseUint` gives to the byte `c`
(`none`: the `default` branch, a syntax error). -/
def digitOf (c : UInt8) : Option Nat :=
  if 48 ≤ c.toNat ∧ c.toNat ≤ 57 then some (c.toNat - 48)
  else if 97 ≤ (strconvLower c).toNat ∧ (strconvLower c).toNat ≤ 122 then
    some ((strconvLower c).toNat - 97 + 10)
  else none

/-- The `cutoff` of `strconv.ParseUint` for base 10: `maxUint64/10 + 1`. -/
def cutoff10 : Nat := (2 ^ 64 - 1) / 10 + 1

/-- The digit loop of `strconv.ParseUint` for base 10, from the accumulator
`n` on.  The result is the pair `(value, error)` of the Go function; the
error text is that of `strconv.ErrSyntax` or `strconv.ErrRange`. -/
def parseUintLoop (maxVal : Nat) : Nat → List UInt8 → Nat × GoError
  | n, [] => (n, none)
  | n, c :: cs =>
    match digitOf c with
    | none => (0, some "invalid syntax")
    | some d =>
      if d ≥ 10 then (0, some "invalid syntax")
      else if n ≥ cutoff10 then (maxVal, some "value out of range")
      else
        let n1 := n * 10 + d
        if n1 > maxVal then (maxVal, some "value out of range")
        else parseUintLoop maxVal n1 cs

/-- The function `strconv.ParseUint(s, 10, bitSize)` for `0 < bitSize ≤ 64`. -/
def ParseUint (s : GoString) (bitSize : Nat) : Nat × GoError :=
  if s = [] then (0, some "invalid syntax")
  else parseUintLoop (2 ^ bitSize - 1) 0 s

/-! ## Types of the Cosmos side -/

/-- The Go conversion `uint32(n)` of a `uint64`. -/
def toUint32 (n : Nat) : Nat := n % 2 ^ 32

/-- The Go conversion of a `uint32` to the 32-bit signed type underlying
`oracletypes.NetworkDescriptor`. -/
def int32OfUint32 (u : Nat) : Int :=
  if u % 2 ^ 32 < 2 ^ 31 then ((u % 2 ^ 32 : Nat) : Int)
  else ((u % 2 ^ 32 : Nat) : Int) - 2 ^ 32

/-- Modelled from the spec: `oracletypes.NetworkDescriptor`, the "small
integer identifying a configured chain" (a 32-bit signed enumeration whose
declaration is outside the two files). -/
abbrev NetworkDescriptor := Int

/-- An `abci.EventAttribute`: a key and a value, both byte slices. -/
structure EventAttribute where
  Key : Bytes
  Value : Bytes
deriving DecidableEq, Repr

/-- Modelled from the spec: `types.CosmosMsg`, the minimal relay message with
its two fields (its declaration is outside the two files). -/
structure CosmosMsg where
  NetworkDescriptor : NetworkDescriptor := 0
  ProphecyID : Bytes := []
deriving DecidableEq, Repr

/-- Modelled from the spec: `types.NewCosmosMsg`, which packs the two fields
into a `CosmosMsg`. -/
def NewCosmosMsg (networkDescriptor : NetworkDescriptor) (prophecyID : Bytes) : CosmosMsg :=
  { NetworkDescriptor := networkDescriptor, ProphecyID := prophecyID }

/-- What `parser.go` takes from the packages `types` and `oracletypes`:
the two attribute-key names `types.ProphecyID.String()` and
`types.NetworkDescriptor.String()`, and the membership test
`oracletypes.NetworkDescriptor.IsValid` of the recognized network set. -/
structure ParserEnv where
  ProphecyIDKey : GoString
  NetworkDescriptorKey : GoString
  IsValid : NetworkDescriptor → Bool

/-! ## `BurnLockEventToCosmosMsg` (parser.go, lines 84-124) -/

/-- The `for _, attribute := range attributes` loop of
`BurnLockEventToCosmosMsg` followed by the code after it, from the loop
state `(prophecyID, networkDescriptor, attributeNumber)` on. -/
def burnLockLoop (E : ParserEnv) :
    List EventAttribute → Bytes → Nat → Nat → CosmosMsg × GoError
  | [], prophecyID, networkDescriptor, attributeNumber =>
    if attributeNumber < 2 then ({}, some "message not complete")
    else (NewCosmosMsg (int32OfUint32 networkDescriptor) prophecyID, none)
  | attr :: rest, prophecyID, networkDescriptor, attributeNumber =>
    let key : GoString := attr.Key
    let val : GoString := attr.Value
    if key = E.ProphecyIDKey then
      burnLockLoop E rest val networkDescriptor (attributeNumber + 1)
    else if key = E.NetworkDescriptorKey then
      match ParseUint val 32 with
      | (_, some _) => ({}, some "network id can't parse")
      | (tempNetworkDescriptor, none) =>
        let networkDescriptor' := toUint32 tempNetworkDescriptor
        if !E.IsValid (int32OfUint32 networkDescriptor') then
          ({}, some "network id is invalid")
        else burnLockLoop E rest prophecyID networkDescriptor' (attributeNumber + 1)
    else burnLockLoop E rest prophecyID networkDescriptor attributeNumber

/-- The function `BurnLockEventToCosmosMsg`: the loop started with
`prophecyID = nil`, `networkDescriptor = 0`, `attributeNumber = 0`. -/
def BurnLockEventToCosmosMsg (E : ParserEnv) (attributes : List EventAttribute) :
    CosmosMsg × GoError :=
  burnLockLoop E attributes [] 0 0

/-- The base-10 text of a natural number, as `strconv.FormatUint(n, 10)`
writes it: most significant digit first, no sign, no leading zero. -/
def decimalText (n : Nat) : GoString :=
  if n = 0 then [48] else (Nat.digits 10 n).reverse.map (fun d => UInt8.ofNat (48 + d))


/-! ## `getOracleClaimType` (cosmos.go, lines 179-193) -/

/-- The constants of `types.Event` that cosmos.go names. -/
inductive Event where
  | Unsupported
  | MsgBurn
  | MsgLock
  | ProphecyCompleted
deriving DecidableEq, Repr

/-- The function `getOracleClaimType`; `str` is `types.Event.String`, whose
table of names is outside the two files.  A Go `switch` takes the first
case that matches. -/
def getOracleClaimType (str : Event → GoString) (eventType : GoString) : Event :=
  if eventType = str Event.MsgBurn then Event.MsgBurn
  else if eventType = str Event.MsgLock then Event.MsgLock
  else if eventType = str Event.ProphecyCompleted then Event.ProphecyCompleted
  else Event.Unsupported

/-! ## `witnessSignProphecyID` and `ProcessLockBurnWithScope` (cosmos.go) -/

/-- A `common.Address`: an array of 20 bytes. -/
abbrev Address := { l : List UInt8 // l.length = 20 }

/-- An `ecdsa.PublicKey` (the curve is fixed). -/
structure PublicKey where
  X : Int
  Y : Int
deriving DecidableEq, Repr

/-- An `ecdsa.PrivateKey`. -/
structure PrivateKey where
  PublicKey : PublicKey
  D : Int
deriving DecidableEq, Repr

/-- The fields of `CosmosSub` that hold data (the logger and the client
context carry no data the scan reads). -/
structure CosmosSub where
  TmProvider : GoString := []
  EthProvider : GoString := []
  PrivateKey : PrivateKey
  NetworkDescriptor : NetworkDescriptor
  ValidatorName : GoString
deriving DecidableEq, Repr

/-- Modelled from the spec: the message made by
`ethbridgetypes.NewMsgSignProphecy`, "validator address, network descriptor,
ProphecyID, signer address, and signature" (its declaration is outside the
two files). -/
structure MsgSignProphecy where
  CosmosSender : GoString
  NetworkDescriptor : NetworkDescriptor
  ProphecyID : Bytes
  EthereumAddress : GoString
  Signature : GoString
deriving DecidableEq, Repr

/-- Modelled from the spec: `ethbridgetypes.NewMsgSignProphecy`, which packs
its five arguments into the message. -/
def NewMsgSignProphecy (cosmosSender : GoString) (networkDescriptor : NetworkDescriptor)
    (prophecyID : Bytes) (ethereumAddress : GoString) (signature : GoString) :
    MsgSignProphecy :=
  { CosmosSender := cosmosSender, NetworkDescriptor := networkDescriptor,
    ProphecyID := prophecyID, EthereumAddress := ethereumAddress, Signature := signature }

/-- What cosmos.go takes from other packages, for a transaction factory of
type `F`: the names of the events, the keyring lookup
`GetValAddressFromKeyring(txFactory.Keybase(), name)`, `sdk.ValAddress.String`,
`txs.PrefixMsg`, `crypto.PubkeyToAddress`, `common.Address.String` and
`txs.SignClaim`. -/
structure RelayEnv (F : Type) extends ParserEnv where
  EventString : Event → GoString
  GetValAddressFromKeyring : F → GoString → Bytes × GoError
  ValAddressString : Bytes → GoString
  PrefixMsg : Bytes → Bytes
  PubkeyToAddress : PublicKey → Address
  AddressString : Address → GoString
  SignClaim : Bytes → PrivateKey → Bytes × GoError

/-- What the relayer does to the outside while it scans, in order: a call of
`client.BlockResults` at a height and whether it succeeded, the
classification of an event, a line of an error branch written to the log, a
call of `txs.SignClaim` on some data and whether it succeeded, and a call of
`txs.SignProphecyToCosmos` with a message. -/
inductive Action where
  | fetched (height : Int) (ok : Bool)
  | classified (eventType : GoString) (claimType : Event)
  | logged (text : String)
  | signed (signData : Bytes) (ok : Bool)
  | submitted (msg : MsgSignProphecy)
deriving DecidableEq, Repr

/-- The method `witnessSignProphecyID` (cosmos.go, lines 217-251).  The two
error branches only write to the log. -/
def witnessSignProphecyID {F : Type} (R : RelayEnv F) (sub : CosmosSub) (txFactory : F)
    (cosmosMsg : CosmosMsg) : List Action :=
  let r := R.GetValAddressFromKeyring txFactory sub.ValidatorName
  let valAddr := r.1
  let log1 := if r.2.isSome then [Action.logged "get the prophecy claim."] else []
  let signData := R.PrefixMsg cosmosMsg.ProphecyID
  let address := R.PubkeyToAddress sub.PrivateKey.PublicKey
  let q := R.SignClaim signData sub.PrivateKey
  let signature := q.1
  let log2 := if q.2.isSome then [Action.logged "failed to sign the prophecy id"] else []
  let signProphecy := NewMsgSignProphecy (R.ValAddressString valAddr)
    cosmosMsg.NetworkDescriptor cosmosMsg.ProphecyID (R.AddressString address) signature
  log1 ++ [Action.signed signData q.2.isNone] ++ log2 ++ [Action.submitted signProphecy]

/-- An `abci.Event`: its type and its attributes. -/
structure AbciEvent where
  Typ : GoString
  Attributes : List EventAttribute
deriving DecidableEq, Repr

/-- An `abci.ResponseDeliverTx`, of which the scan reads the events. -/
structure ResponseDeliverTx where
  Events : List AbciEvent
deriving DecidableEq, Repr

/-- A `ctypes.ResultBlockResults`, of which the scan reads `TxsResults`. -/
structure ResultBlockResults where
  TxsResults : List ResponseDeliverTx
deriving DecidableEq, Repr

/-- The body of `for _, event := range txLog.Events` in
`ProcessLockBurnWithScope` (cosmos.go, lines 136-161) for one event. -/
def processEvent {F : Type} (R : RelayEnv F) (sub : CosmosSub) (txFactory : F)
    (event : AbciEvent) : List Action :=
  let claimType := getOracleClaimType R.EventString event.Typ
  Action.classified event.Typ claimType ::
    (if claimType = Event.MsgBurn ∨ claimType = Event.MsgLock then
      match BurnLockEventToCosmosMsg R.toParserEnv event.Attributes with
      | (_, some _) =>
        [Action.logged "sifchain client failed in get burn lock message from event."]
      | (cosmosMsg, none) =>
        if cosmosMsg.NetworkDescriptor = sub.NetworkDescriptor then
          witnessSignProphecyID R sub txFactory cosmosMsg
        else []
    else [])

/-- The loop `for _, event := range txLog.Events`. -/
def processEvents {F : Type} (R : RelayEnv F) (sub : CosmosSub) (txFactory : F) :
    List AbciEvent → List Action
  | [] => []
  | event :: rest => processEvent R sub txFactory event ++ processEvents R sub txFactory rest

/-- The loop `for _, txLog := range block.TxsResults`. -/
def processTxs {F : Type} (R : RelayEnv F) (sub : CosmosSub) (txFactory : F) :
    List ResponseDeliverTx → List Action
  | [] => []
  | txLog :: rest => processEvents R sub txFactory txLog.Events ++ processTxs R sub txFactory rest

/-- The RPC client: `client n h` is the answer to the `n`-th call of
`client.BlockResults` made by the scan, when it is made at height `h`
(`none`: the call returns an error). -/
abbrev Client := Nat → Int → Option ResultBlockResults

/-- The result of an `int64` operation whose exact value is `i`. -/
def wrapInt64 (i : Int) : Int := (i + 2 ^ 63) % 2 ^ 64 - 2 ^ 63

/-- The state of the loop of `ProcessLockBurnWithScope`: the loop variable,
the number of `BlockResults` calls made, and the actions done so far. -/
structure ScanState where
  blockNumber : Int
  calls : Nat
  trace : List Action
deriving DecidableEq, Repr

/-- One iteration of `for blockNumber := fromBlockNumber; blockNumber <=
toBlockNumber; { ... }` (cosmos.go, lines 122-165); `none` when the loop
condition is false and the loop is left. -/
def scanStep {F : Type} (R : RelayEnv F) (sub : CosmosSub) (txFactory : F) (client : Client)
    (toBlockNumber : Int) (s : ScanState) : Option ScanState :=
  if s.blockNumber ≤ toBlockNumber then
    match client s.calls s.blockNumber with
    | none =>
      some { blockNumber := s.blockNumber, calls := s.calls + 1,
             trace := s.trace ++ [Action.fetched s.blockNumber false,
               Action.logged "sifchain client failed to get a block."] }
    | some block =>
      some { blockNumber := wrapInt64 (s.blockNumber + 1), calls := s.calls + 1,
             trace := s.trace ++ Action.fetched s.blockNumber true ::
               processTxs R sub txFactory block.TxsResults }
  else none

/-- The state after `k` iterations of the loop (`none` when the loop is left
before). -/
def scanIter {F : Type} (R : RelayEnv F) (sub : CosmosSub) (txFactory : F) (client : Client)
    (toBlockNumber : Int) : Nat → ScanState → Option ScanState
  | 0, s => some s
  | k + 1, s =>
    match scanStep R sub txFactory client toBlockNumber s with
    | none => none
    | some s' => scanIter R sub txFactory client toBlockNumber k s'

/-- The loop run until it is left, with at most `fuel` iterations (`none`
when the fuel does not suffice). -/
def scanLoop {F : Type} (R : RelayEnv F) (sub : CosmosSub) (txFactory : F) (client : Client)
    (toBlockNumber : Int) : Nat → ScanState → Option ScanState
  | 0, _ => none
  | fuel + 1, s =>
    match scanStep R sub txFactory client toBlockNumber s with
    | none => some s
    | some s' => scanLoop R sub txFactory client toBlockNumber fuel s'

/-- The method `ProcessLockBurnWithScope`: the actions of the whole scan,
when it ends within `fuel` iterations. -/
def ProcessLockBurnWithScope {F : Type} (R : RelayEnv F) (sub : CosmosSub) (txFactory : F)
    (client : Client) (fuel : Nat) (fromBlockNumber toBlockNumber : Int) :
    Option (List Action) :=
  (scanLoop R sub txFactory client toBlockNumber fuel
    { blockNumber := fromBlockNumber, calls := 0, trace := [] }).map (fun s => s.trace)

/-! ## `isZeroAddress` (parser.go, lines 215-218) -/

/-- The constant `nullAddress` of parser.go. -/
def nullAddress : GoString := lit "0x0000000000000000000000000000000000000000"

/-- The function `fromHexChar` of `encoding/hex`. -/
def fromHexChar (c : UInt8) : Option UInt8 :=
  if 48 ≤ c.toNat ∧ c.toNat ≤ 57 then some (c - 48)
  else if 97 ≤ c.toNat ∧ c.toNat ≤ 102 then some (c - 97 + 10)
  else if 65 ≤ c.toNat ∧ c.toNat ≤ 70 then some (c - 65 + 10)
  else none

/-- The bytes `hex.DecodeString` has written when it stops (`common.Hex2Bytes`
drops its error): one byte for each pair of hexadecimal digits, up to the
first byte that is not one. -/
def Hex2Bytes : List UInt8 → Bytes
  | a :: b :: rest =>
    match fromHexChar a, fromHexChar b with
    | some x, some y => ((x <<< 4) ||| y) :: Hex2Bytes rest
    | _, _ => []
  | _ => []

/-- The function `common.FromHex`: an optional `0x` prefix is dropped and a
text of odd length gets a leading `0`. -/
def FromHex (s : GoString) : Bytes :=
  let s1 : GoString :=
    match s with
    | a :: b :: rest => if a = 48 ∧ (b = 120 ∨ b = 88) then rest else s
    | _ => s
  let s2 : GoString := if s1.length % 2 = 1 then 48 :: s1 else s1
  Hex2Bytes s2

/-- The function `common.BytesToAddress`: the last 20 bytes, padded with
zero bytes on the left. -/
def BytesToAddress (b : Bytes) : Address :=
  ⟨List.replicate (20 - (b.drop (b.length - 20)).length) 0 ++ b.drop (b.length - 20), by
    simp only [List.length_append, List.length_replicate, List.length_drop]; omega⟩

/-- The function `common.HexToAddress`. -/
def HexToAddress (s : GoString) : Address := BytesToAddress (FromHex s)

/-- The function `isZeroAddress`. -/
def isZeroAddress (address : Address) : Bool :=
  decide (address = HexToAddress nullAddress)

/-! ## `EthereumEventToEthBridgeClaim` (parser.go, lines 26-81) -/

/-- The constants of `ethbridge.ClaimType`. -/
inductive ClaimType where
  | CLAIM_TYPE_UNSPECIFIED
  | CLAIM_TYPE_BURN
  | CLAIM_TYPE_LOCK
deriving DecidableEq, Repr

/-- The fields of `types.EthereumEvent` that the parser reads (the
declaration is outside the two files).  The two `*big.Int` fields point to
integers of any size, and `Decimals` is an unsigned byte. -/
structure EthereumEvent where
  To : Bytes
  Symbol : GoString
  Name : GoString
  Value : Int
  Nonce : Int
  ClaimType : ClaimType
  BridgeContractAddress : Address
  From : Address
  Token : Address
  Decimals : UInt8
  NetworkDescriptor : NetworkDescriptor
deriving DecidableEq, Repr

/-- The fields of `ethbridge.EthBridgeClaim` that the parser sets; the
defaults are the zero values of Go (`Amount` is an `sdk.Int`, whose zero
value holds no integer). -/
structure EthBridgeClaim where
  NetworkDescriptor : NetworkDescriptor := 0
  BridgeContractAddress : GoString := []
  Nonce : Int := 0
  TokenContractAddress : GoString := []
  Symbol : GoString := []
  EthereumSender : GoString := []
  ValidatorAddress : GoString := []
  CosmosReceiver : GoString := []
  Amount : Option Int := none
  ClaimType : ClaimType := ClaimType.CLAIM_TYPE_UNSPECIFIED
  Decimals : Int := 0
  TokenName : GoString := []
  DenomHash : GoString := []
deriving DecidableEq, Repr

/-- What `EthereumEventToEthBridgeClaim` takes from other packages:
`common.Address.Hex`, `ethbridge.NewEthereumAddress(s).String()`,
`sdk.AccAddressFromBech32`, `sdk.AccAddress.String`, `sdk.ValAddress.String`,
`strings.ToLower`, `ethbridge.GetDenomHash`, and the largest bit length
`maxBitLen` that an `sdk.Int` accepts. -/
structure EthEnv where
  Hex : Address → GoString
  EthereumAddressString : GoString → GoString
  AccAddressFromBech32 : GoString → Bytes × GoError
  AccAddressString : Bytes → GoString
  ValAddressString : Bytes → GoString
  ToLower : GoString → GoString
  GetDenomHash : NetworkDescriptor → GoString → Int → GoString → GoString → GoString
  maxBitLen : Nat

/-- The function `sdk.NewIntFromBigInt` on a non-nil argument: it panics
(`none`) when the bit length of `|i|` exceeds `maxBitLen`, that is when
`2 ^ maxBitLen ≤ |i|`. -/
def NewIntFromBigInt (maxBitLen : Nat) (i : Int) : Option Int :=
  if 2 ^ maxBitLen ≤ i.natAbs then none else some i

/-- The method `big.Int.Int64`: the low 64 bits of `|x|` as an `int64`,
negated when `x` is negative. -/
def bigIntInt64 (x : Int) : Int :=
  if x < 0 then wrapInt64 (-(wrapInt64 ((x.natAbs % 2 ^ 64 : Nat) : Int)))
  else wrapInt64 ((x.natAbs % 2 ^ 64 : Nat) : Int)

/-- The function `EthereumEventToEthBridgeClaim`, with `int` of 64 bits.
`EthereumToSifchain` is the method of the symbol translator.  The result is
`none` when the function panics (in `sdk.NewIntFromBigInt`), else the pair
`(claim, error)` it returns. -/
def EthereumEventToEthBridgeClaim (X : EthEnv) (valAddr : Bytes) (event : EthereumEvent)
    (EthereumToSifchain : GoString → GoString) : Option (EthBridgeClaim × GoError) :=
  let witnessClaim : EthBridgeClaim := {}
  let networkDescriptor := event.NetworkDescriptor
  let bridgeContractAddress := X.EthereumAddressString (X.Hex event.BridgeContractAddress)
  let sender := X.EthereumAddressString (X.Hex event.From)
  match X.AccAddressFromBech32 event.To with
  | (_, some err) => some (witnessClaim, some err)
  | (recipient, none) =>
    if recipient = [] then some (witnessClaim, some "empty recipient address")
    else
      let tokenContractAddress := X.EthereumAddressString (X.Hex event.Token)
      let symbol := X.ToLower event.Symbol
      let checked : GoString × GoError :=
        match event.ClaimType with
        | ClaimType.CLAIM_TYPE_LOCK =>
          if symbol = lit "eth" ∧ ¬ isZeroAddress event.Token = true then
            (symbol, some "symbol \"eth\" must have null address set as token address")
          else (symbol, none)
        | ClaimType.CLAIM_TYPE_BURN => (EthereumToSifchain symbol, none)
        | ClaimType.CLAIM_TYPE_UNSPECIFIED => (symbol, none)
      match checked with
      | (_, some err) => some (witnessClaim, some err)
      | (symbol', none) =>
        match NewIntFromBigInt X.maxBitLen event.Value with
        | none => none
        | some amount =>
          let nonce := bigIntInt64 event.Nonce
          some ({ NetworkDescriptor := networkDescriptor
                  BridgeContractAddress := bridgeContractAddress
                  Nonce := nonce
                  TokenContractAddress := tokenContractAddress
                  Symbol := symbol'
                  EthereumSender := sender
                  ValidatorAddress := X.ValAddressString valAddr
                  CosmosReceiver := X.AccAddressString recipient
                  Amount := some amount
                  ClaimType := event.ClaimType
                  Decimals := (event.Decimals.toNat : Int)
                  TokenName := event.Name
                  DenomHash := X.GetDenomHash networkDescriptor tokenContractAddress
                    (event.Decimals.toNat : Int) event.Name event.Symbol }, none)

/-- The messages handed to `txs.SignProphecyToCosmos` in a list of actions,
in order. -/
def submissions : List Action → List MsgSignProphecy
  | [] => []
  | Action.submitted msg :: rest => msg :: submissions rest
  | _ :: rest => submissions rest

/-- The log and fetch record that one failed iteration of the scan at
height `h` leaves, `k` times over. -/
def failedFetches (h : Int) : Nat → List Action
  | 0 => []
  | k + 1 => Action.fetched h false ::
      Action.logged "sifchain client failed to get a block." :: failedFetches h k

/-- An attribute under the `NetworkDescriptor` key is accepted by the loop of
`BurnLockEventToCosmosMsg`: its value parses and names a recognized network. -/
def networkValueGood (E : ParserEnv) (a : EventAttribute) : Prop :=
  (ParseUint a.Value 32).2 = none ∧
    E.IsValid (int32OfUint32 (toUint32 (ParseUint a.Value 32).1)) = true

instance (E : ParserEnv) (a : EventAttribute) : Decidable (networkValueGood E a) :=
  inferInstanceAs (Decidable (_ ∧ _))

/-! ## The nonce queries and `CheckNonceAndProcess` (cosmos.go, lines 108-119, 253-310) -/

/-- The result of a `uint64` operation whose exact value is `n`. -/
def wrapUint64 (n : Nat) : Nat := n % 2 ^ 64

/-- An `ethbridgetypes.QueryWitnessLockBurnNonceRequest`. -/
structure QueryWitnessLockBurnNonceRequest where
  NetworkDescriptor : NetworkDescriptor
  RelayerValAddress : GoString
deriving DecidableEq, Repr

/-- An `ethbridgetypes.QueryGlocalNonceBlockNumberRequest`; `GlobalNonce` is
a `uint64`. -/
structure QueryGlocalNonceBlockNumberRequest where
  NetworkDescriptor : NetworkDescriptor
  GlobalNonce : Nat
deriving DecidableEq, Repr

/-- The gRPC side of cosmos.go, for a connection of type `C`: `grpc.Dial`,
and the two queries of the client made from the connection, each giving the
`uint64` field of its response and its error. -/
structure QueryEnv (C : Type) where
  Dial : GoString → C × GoError
  WitnessLockBurnNonce : C → QueryWitnessLockBurnNonceRequest → Nat × GoError
  GlocalNonceBlockNumber : C → QueryGlocalNonceBlockNumberRequest → Nat × GoError

/-- The method `GetWitnessLockBurnNonceFromCosmos` (cosmos.go, lines 254-274). -/
def GetWitnessLockBurnNonceFromCosmos {C : Type} (Q : QueryEnv C) (sub : CosmosSub)
    (networkDescriptor : NetworkDescriptor) (relayerValAddress : GoString) : Nat × GoError :=
  match Q.Dial sub.TmProvider with
  | (_, some err) => (0, some err)
  | (conn, none) =>
    let request : QueryWitnessLockBurnNonceRequest :=
      { NetworkDescriptor := networkDescriptor, RelayerValAddress := relayerValAddress }
    match Q.WitnessLockBurnNonce conn request with
    | (_, some err) => (0, some err)
    | (witnessLockBurnNonce, none) => (witnessLockBurnNonce, none)

/-- The method `GetGlobalNonceBlockNumberFromCosmos` (cosmos.go, lines
277-310); the result is the triple `(nonce, height, error)`. -/
def GetGlobalNonceBlockNumberFromCosmos {C : Type} (Q : QueryEnv C) (sub : CosmosSub)
    (networkDescriptor : NetworkDescriptor) (relayerValAddress : GoString) :
    Nat × Nat × GoError :=
  match Q.Dial sub.TmProvider with
  | (_, some err) => (0, 0, some err)
  | (conn, none) =>
    let request : QueryWitnessLockBurnNonceRequest :=
      { NetworkDescriptor := networkDescriptor, RelayerValAddress := relayerValAddress }
    match Q.WitnessLockBurnNonce conn request with
    | (_, some err) => (0, 0, some err)
    | (globalNonce, none) =>
      let request2 : QueryGlocalNonceBlockNumberRequest :=
        { NetworkDescriptor := networkDescriptor, GlobalNonce := wrapUint64 (globalNonce + 1) }
      match Q.GlocalNonceBlockNumber conn request2 with
      | (_, some err) => (0, 0, some err)
      | (blockNumber, none) => (globalNonce, blockNumber, none)

set_option linter.unusedVariables false in
/-- The method `CheckNonceAndProcess` (cosmos.go, lines 109-119), as the
actions it does.  The identifiers `networkID` and `sub.ValidatorAddress` are
not declared in cosmos.go: `networkID` here is the value of
`networkID.Uint64()` and `validatorAddress` that of `sub.ValidatorAddress`.
The nonce the query returns is not used, neither are `txFactory` and
`tmclient`, and the body ends after the error branch. -/
def CheckNonceAndProcess {F C : Type} (Q : QueryEnv C) (sub : CosmosSub) (txFactory : F)
    (tmclient : Client) (networkID : Nat) (validatorAddress : Bytes) : List Action :=
  match GetWitnessLockBurnNonceFromCosmos Q sub (int32OfUint32 (toUint32 (wrapUint64 networkID)))
      validatorAddress with
  | (_, some _) => [Action.logged "failed to get the lock burn nonce from cosmos rpc"]
  | (_, none) => []

/-! ## `MessageProcessed` (cosmos.go, lines 168-177) -/

/-- The function `bytes.Compare` (Go standard library): the lexicographic
comparison of two byte slices, `0` when they are equal, `-1` when the first
is the smaller and `1` when it is the greater; a `nil` slice is the empty
one. -/
def bytesCompare : Bytes → Bytes → Int
  | [], [] => 0
  | [], _ :: _ => -1
  | _ :: _, [] => 1
  | a :: as, b :: bs =>
    if a.toNat < b.toNat then -1
    else if b.toNat < a.toNat then 1
    else bytesCompare as bs

/-- The field of `types.ProphecyClaimUnique` that cosmos.go reads (the
declaration is outside the two files). -/
structure ProphecyClaimUnique where
  ProphecyID : Bytes
deriving DecidableEq, Repr

/-- The function `MessageProcessed`: the loop over `prophecyClaims`, left with
`true` at the first element whose `ProphecyID` compares equal. -/
def MessageProcessed (prophecyID : Bytes) : List ProphecyClaimUnique → Bool
  | [] => false
  | prophecyClaim :: rest =>
    if bytesCompare prophecyID prophecyClaim.ProphecyID = 0 then true
    else MessageProcessed prophecyID rest

/-! ## Reading a list of actions -/

/-- The heights of the `client.BlockResults` calls in a list of actions, in
order. -/
def fetchedHeights : List Action → List Int
  | [] => []
  | Action.fetched h _ :: rest => h :: fetchedHeights rest
  | _ :: rest => fetchedHeights rest

/-- The events handed to `getOracleClaimType` in a list of actions, in
order, each with the kind it was given. -/
def classifications : List Action → List (GoString × Event)
  | [] => []
  | Action.classified eventType claimType :: rest =>
    (eventType, claimType) :: classifications rest
  | _ :: rest => classifications rest

/-- The calls of `txs.SignClaim` in a list of actions, in order. -/
def signings : List Action → List (Bytes × Bool)
  | [] => []
  | Action.signed signData ok :: rest => (signData, ok) :: signings rest
  | _ :: rest => signings rest

/-- The events of the transactions of a block, in their stored order. -/
def allEvents : List ResponseDeliverTx → List AbciEvent
  | [] => []
  | txLog :: rest => txLog.Events ++ allEvents rest

/-- The actions of a scan whose fetches all succeed, over `n` heights from
`fromBlockNumber` on, when the call number `start + i` at the height
`fromBlockNumber + i` returns `blocks (start + i) (fromBlockNumber + i)`. -/
def scanTrace {F : Type} (R : RelayEnv F) (sub : CosmosSub) (txFactory : F)
    (blocks : Nat → Int → ResultBlockResults) : Int → Nat → Nat → List Action
  | _, _, 0 => []
  | fromBlockNumber, start, n + 1 =>
    Action.fetched fromBlockNumber true ::
      processTxs R sub txFactory (blocks start fromBlockNumber).TxsResults ++
        scanTrace R sub txFactory blocks (fromBlockNumber + 1) (start + 1) n

/-- The events of the blocks of such a scan, in the order of the heights and,
within a block, in their stored order. -/
def scanEvents (blocks : Nat → Int → ResultBlockResults) : Int → Nat → Nat → List AbciEvent
  | _, _, 0 => []
  | fromBlockNumber, start, n + 1 =>
    allEvents (blocks start fromBlockNumber).TxsResults ++
      scanEvents blocks (fromBlockNumber + 1) (start + 1) n

/-- The heights `fromBlockNumber, fromBlockNumber + 1, ...`, `n` of them. -/
def heightsFrom : Int → Nat → List Int
  | _, 0 => []
  | fromBlockNumber, n + 1 => fromBlockNumber :: heightsFrom (fromBlockNumber + 1) n

/-! ## Texts that write an unsigned integer -/

/-- The number that a text of decimal digits writes. -/
def decimalValue (s : GoString) : Nat := s.foldl (fun acc c => acc * 10 + (c.toNat - 48)) 0

/-- The text is the base-10 writing of an unsigned integer of `bitSize` bits:
it is not empty, it holds decimal digits only (no sign, no other byte), and
its value is below `2 ^ bitSize`. -/
def writesUnsigned (s : GoString) (bitSize : Nat) : Prop :=
  s ≠ [] ∧ (∀ c ∈ s, 48 ≤ c.toNat ∧ c.toNat ≤ 57) ∧ decimalValue s < 2 ^ bitSize

instance (s : GoString) (bitSize : Nat) : Decidable (writesUnsigned s bitSize) :=
  inferInstanceAs (Decidable (_ ∧ _ ∧ _))

/-! ## Concrete collaborators, used to evaluate the definitions -/

/-- A parser environment: the keys are `prophecy_id` and `network_id`, and
the networks 1 and 9999 are recognized. -/
def exParserEnv : ParserEnv :=
  { ProphecyIDKey := lit "prophecy_id", NetworkDescriptorKey := lit "network_id",
    IsValid := fun n => n == 1 || n == 9999 }

/-- A relay environment over `exParserEnv`, with a transaction factory that
is its keyring's answer.  Signing with a key whose `D` is zero fails, and a
signature is the signed data followed by one byte. -/
def exRelayEnv : RelayEnv (Bytes × GoError) :=
  { exParserEnv with
    EventString := fun e =>
      match e with
      | Event.Unsupported => lit "unsupported"
      | Event.MsgBurn => lit "burn"
      | Event.MsgLock => lit "lock"
      | Event.ProphecyCompleted => lit "prophecy_completed"
    GetValAddressFromKeyring := fun f _ => f
    ValAddressString := fun b => b
    PrefixMsg := fun b => lit "prefix" ++ b
    PubkeyToAddress := fun _ => HexToAddress nullAddress
    AddressString := fun a => a.val
    SignClaim := fun d k => if k.D = 0 then ([], some "invalid key") else (d ++ [1], none) }

/-- A subscriber of network 1 with a usable key. -/
def exSub : CosmosSub :=
  { PrivateKey := { PublicKey := { X := 1, Y := 2 }, D := 7 },
    NetworkDescriptor := 1, ValidatorName := lit "validator" }

/-- The subscriber `exSub` with a key that cannot sign. -/
def exSubBadKey : CosmosSub :=
  { PrivateKey := { PublicKey := { X := 1, Y := 2 }, D := 0 },
    NetworkDescriptor := 1, ValidatorName := lit "validator" }

/-- A Lock event with the attributes `{prophecy_id: "abc123", network_id: "1"}`. -/
def exLockEvent : AbciEvent :=
  { Typ := lit "lock",
    Attributes := [⟨lit "prophecy_id", lit "abc123"⟩, ⟨lit "network_id", lit "1"⟩] }

/-- A client whose first two calls fail and whose later calls return a block
with one transaction holding `exLockEvent`. -/
def exClient : Client := fun n _ =>
  if n < 2 then none else some { TxsResults := [{ Events := [exLockEvent] }] }

/-- An environment for the Ethereum side: every non-empty receiver decodes
to itself, the empty one is refused, lower-casing acts on the ASCII letters,
and the hash is the concatenation of name and symbol. -/
def exEthEnv : EthEnv :=
  { Hex := fun a => a.val
    EthereumAddressString := fun s => s
    AccAddressFromBech32 := fun s =>
      if s = [] then ([], some "empty address string is not allowed") else (s, none)
    AccAddressString := fun b => b
    ValAddressString := fun b => b
    ToLower := fun s => s.map (fun c => if 65 ≤ c.toNat ∧ c.toNat ≤ 90 then c + 32 else c)
    GetDenomHash := fun _ _ _ name symbol => name ++ symbol
    maxBitLen := 256 }

/-- An address that is not the zero address. -/
def exToken : Address := BytesToAddress [1]

/-- An event of the given kind with the symbol `ETH` and the token `exToken`. -/
def exEthEvent (kind : ClaimType) : EthereumEvent :=
  { To := lit "sif1receiver", Symbol := lit "ETH", Name := lit "Ether", Value := 10, Nonce := 3,
    ClaimType := kind, BridgeContractAddress := HexToAddress nullAddress,
    From := HexToAddress nullAddress, Token := exToken, Decimals := 18,
    NetworkDescriptor := 1 }

/-- A symbol translation: `eth` becomes `ceth`, all else is kept. -/
def exTranslate (s : GoString) : GoString := if s = lit "eth" then lit "ceth" else s

/-- The claim that `exEthEvent` of kind Burn builds to, for the validator
`sifvaloper1`, under `exEthEnv` and `exTranslate`. -/
def exBurnClaim : EthBridgeClaim :=
  { NetworkDescriptor := 1
    BridgeContractAddress := List.replicate 20 0
    Nonce := 3
    TokenContractAddress := List.replicate 19 0 ++ [1]
    Symbol := lit "ceth"
    EthereumSender := List.replicate 20 0
    ValidatorAddress := lit "sifvaloper1"
    CosmosReceiver := lit "sif1receiver"
    Amount := some 10
    ClaimType := ClaimType.CLAIM_TYPE_BURN
    Decimals := 18
    TokenName := lit "Ether"
    DenomHash := lit "EtherETH" }

/-- A gRPC side whose connection is the target: dialing the empty target
fails, the validator `sifvaloper1` has witnessed nonce 41, and the nonce `n`
is at height `100 + n`. -/
def exQueryEnv : QueryEnv GoString :=
  { Dial := fun target =>
      if target = [] then ([], some "connection refused") else (target, none)
    WitnessLockBurnNonce := fun _ request =>
      if request.RelayerValAddress = lit "sifvaloper1" then (41, none)
      else (0, some "unknown validator")
    GlocalNonceBlockNumber := fun _ request => (100 + request.GlobalNonce, none) }

/-- The subscriber `exSub` with the provider `tcp://localhost:26657`. -/
def exSubConnected : CosmosSub :=
  { exSub with TmProvider := lit "tcp://localhost:26657" }

/-- A client whose calls all succeed with a block of one transaction holding
`exLockEvent`. -/
def exClientOk : Client := fun _ _ => some { TxsResults := [{ Events := [exLockEvent] }] }

/-- A Lock event whose attributes lack the network. -/
def exBadLockEvent : AbciEvent :=
  { Typ := lit "lock", Attributes := [⟨lit "prophecy_id", lit "abc123"⟩] }

/-- An event of a kind the relayer does not handle. -/
def exOtherEvent : AbciEvent :=
  { Typ := lit "transfer", Attributes := [⟨lit "amount", lit "5"⟩] }

/-- A client whose calls all succeed with a block of no transaction. -/
def exClientEmpty : Client := fun _ _ => some { TxsResults := [] }

/-- A client whose first call returns a block of one transaction with the
events `exLockEvent`, `exBadLockEvent`, `exLockEvent`, and whose later calls
are those of `exClientOk`. -/
def exClientWithBad : Client := fun n h =>
  if n = 0 then
    some { TxsResults := [] ++ { Events := [exLockEvent] ++ exBadLockEvent :: [exLockEvent] } :: [] }
  else exClientOk n h

/-- The client `exClientWithBad` with `exBadLockEvent` absent from the block
of the first call. -/
def exClientWithoutBad : Client := fun n h =>
  if n = 0 then some { TxsResults := [] ++ { Events := [exLockEvent] ++ [exLockEvent] } :: [] }
  else exClientOk n h

/-! ## Lemmas -/

theorem scanIter_succ {F : Type} (R : RelayEnv F) (sub : CosmosSub) (txFactory : F)
    (client : Client) (toBlockNumber : Int) (k : Nat) (s : ScanState) :
    scanIter R sub txFactory client toBlockNumber (k + 1) s =
      (scanIter R sub txFactory client toBlockNumber k s).bind
        (scanStep R sub txFactory client toBlockNumber) := by
  induction k generalizing s with
  | zero =>
    cases h : scanStep R sub txFactory client toBlockNumber s <;>
      simp [scanIter, h]
  | succ k ih =>
    rw [scanIter]
    cases h : scanStep R sub txFactory client toBlockNumber s with
    | none => simp [scanIter, h]
    | some s' =>
      simp only []
      rw [ih s']
      conv_rhs => rw [scanIter, h]

theorem failedFetches_succ_right (h : Int) (k : Nat) :
    failedFetches h (k + 1) = failedFetches h k ++
      [Action.fetched h false, Action.logged "sifchain client failed to get a block."] := by
  induction k with
  | zero => rfl
  | succ k ih =>
    conv_lhs => rw [failedFetches, ih]
    rfl

theorem scanIter_failing {F : Type} (R : RelayEnv F) (sub : CosmosSub) (txFactory : F)
    (client : Client) (toBlockNumber : Int) (k : Nat) (s : ScanState)
    (hle : s.blockNumber ≤ toBlockNumber)
    (hfail : ∀ i, i < k → client (s.calls + i) s.blockNumber = none) :
    scanIter R sub txFactory client toBlockNumber k s =
      some { blockNumber := s.blockNumber, calls := s.calls + k,
             trace := s.trace ++ failedFetches s.blockNumber k } := by
  induction k with
  | zero => simp [scanIter, failedFetches]
  | succ k ih =>
    rw [scanIter_succ, ih (fun i hi => hfail i (Nat.lt_succ_of_lt hi))]
    have h0 := hfail k (Nat.lt_succ_self k)
    simp only [Option.bind, scanStep, hle, if_true, h0]
    rw [failedFetches_succ_right]
    simp [Nat.add_assoc]

theorem burnLockLoop_nil (E : ParserEnv) (pid : Bytes) (nd num : Nat) :
    burnLockLoop E [] pid nd num =
      if num < 2 then ({}, some "message not complete")
      else (NewCosmosMsg (int32OfUint32 nd) pid, none) := by
  rw [burnLockLoop]

theorem burnLockLoop_cons_prophecy (E : ParserEnv) (a : EventAttribute)
    (rest : List EventAttribute) (pid : Bytes) (nd num : Nat) (h : a.Key = E.ProphecyIDKey) :
    burnLockLoop E (a :: rest) pid nd num = burnLockLoop E rest a.Value nd (num + 1) := by
  rw [burnLockLoop]; simp [h]

theorem burnLockLoop_cons_other (E : ParserEnv) (a : EventAttribute)
    (rest : List EventAttribute) (pid : Bytes) (nd num : Nat) (h : a.Key ≠ E.ProphecyIDKey)
    (h' : a.Key ≠ E.NetworkDescriptorKey) :
    burnLockLoop E (a :: rest) pid nd num = burnLockLoop E rest pid nd num := by
  rw [burnLockLoop]; simp [h, h']

theorem burnLockLoop_cons_network (E : ParserEnv) (a : EventAttribute)
    (rest : List EventAttribute) (pid : Bytes) (nd num : Nat) (h : a.Key ≠ E.ProphecyIDKey)
    (h' : a.Key = E.NetworkDescriptorKey) :
    burnLockLoop E (a :: rest) pid nd num =
      if (ParseUint a.Value 32).2 ≠ none then ({}, some "network id can't parse")
      else if E.IsValid (int32OfUint32 (toUint32 (ParseUint a.Value 32).1)) = false then
        ({}, some "network id is invalid")
      else burnLockLoop E rest pid (toUint32 (ParseUint a.Value 32).1) (num + 1) := by
  rw [burnLockLoop]
  have h3 : ¬ E.NetworkDescriptorKey = E.ProphecyIDKey := fun h4 => h (h'.trans h4)
  simp only [h', h3, if_false, if_true]
  rcases ParseUint a.Value 32 with ⟨t, e⟩
  cases e with
  | none => cases hv : E.IsValid (int32OfUint32 (toUint32 t)) <;> simp [hv]
  | some e => simp

/-- The loop of `BurnLockEventToCosmosMsg` over a prefix `xs` none of whose
`NetworkDescriptor` values is refused: it reaches the rest of the list with
the last `ProphecyID` value, the last network value and the number of
attributes counted. -/
theorem burnLockLoop_append (E : ParserEnv) (hkeys : E.ProphecyIDKey ≠ E.NetworkDescriptorKey)
    (xs rest : List EventAttribute) (pid : Bytes) (nd num : Nat)
    (hgood : ∀ a ∈ xs, a.Key = E.NetworkDescriptorKey → networkValueGood E a) :
    burnLockLoop E (xs ++ rest) pid nd num =
      burnLockLoop E rest
        ((xs.filter (fun a => decide (a.Key = E.ProphecyIDKey))).foldl (fun _ a => a.Value) pid)
        ((xs.filter (fun a => decide (a.Key = E.NetworkDescriptorKey))).foldl
          (fun _ a => toUint32 (ParseUint a.Value 32).1) nd)
        (num + (xs.filter (fun a => decide (a.Key = E.ProphecyIDKey))).length +
          (xs.filter (fun a => decide (a.Key = E.NetworkDescriptorKey))).length) := by
  induction xs generalizing pid nd num with
  | nil => simp
  | cons a xs ih =>
    have hgood' : ∀ b ∈ xs, b.Key = E.NetworkDescriptorKey → networkValueGood E b :=
      fun b hb => hgood b (List.mem_cons_of_mem a hb)
    by_cases h1 : a.Key = E.ProphecyIDKey
    · have h2 : a.Key ≠ E.NetworkDescriptorKey := fun h => hkeys (h1.symm.trans h)
      have hf1 : (a :: xs).filter (fun a => decide (a.Key = E.ProphecyIDKey)) =
          a :: xs.filter (fun a => decide (a.Key = E.ProphecyIDKey)) := by
        simp [List.filter_cons, h1]
      have hf2 : (a :: xs).filter (fun a => decide (a.Key = E.NetworkDescriptorKey)) =
          xs.filter (fun a => decide (a.Key = E.NetworkDescriptorKey)) := by
        simp [List.filter_cons, h2]
      rw [List.cons_append, burnLockLoop_cons_prophecy E a _ pid nd num h1, ih _ _ _ hgood',
        hf1, hf2]
      simp only [List.foldl_cons, List.length_cons]
      congr 1
      omega
    · have hf1 : (a :: xs).filter (fun a => decide (a.Key = E.ProphecyIDKey)) =
          xs.filter (fun a => decide (a.Key = E.ProphecyIDKey)) := by
        simp [List.filter_cons, h1]
      by_cases h2 : a.Key = E.NetworkDescriptorKey
      · obtain ⟨hp, hv⟩ := hgood a (List.mem_cons_self a xs) h2
        have hf2 : (a :: xs).filter (fun a => decide (a.Key = E.NetworkDescriptorKey)) =
            a :: xs.filter (fun a => decide (a.Key = E.NetworkDescriptorKey)) := by
          simp [List.filter_cons, h2]
        rw [List.cons_append, burnLockLoop_cons_network E a _ pid nd num h1 h2,
          if_neg (by simp [hp]), if_neg (by simp [hv]), ih _ _ _ hgood', hf1, hf2]
        simp only [List.foldl_cons, List.length_cons]
        congr 1
        omega
      · have hf2 : (a :: xs).filter (fun a => decide (a.Key = E.NetworkDescriptorKey)) =
            xs.filter (fun a => decide (a.Key = E.NetworkDescriptorKey)) := by
          simp [List.filter_cons, h2]
        rw [List.cons_append, burnLockLoop_cons_other E a _ pid nd num h1 h2,
          ih _ _ _ hgood', hf1, hf2]

theorem digitOf_decimal (d : Nat) (hd : d < 10) : digitOf (UInt8.ofNat (48 + d)) = some d := by
  interval_cases d <;> decide

theorem le_foldl_decimal (ds : List Nat) (n : Nat) :
    n ≤ ds.foldl (fun acc d => acc * 10 + d) n := by
  induction ds generalizing n with
  | nil => simp
  | cons d ds ih =>
    simp only [List.foldl_cons]
    exact le_trans (by omega) (ih (n * 10 + d))

theorem parseUintLoop_digits (maxVal : Nat) (hmax : maxVal ≤ 2 ^ 64 - 1) (ds : List Nat) (n : Nat)
    (hds : ∀ d ∈ ds, d < 10) (hval : ds.foldl (fun acc d => acc * 10 + d) n ≤ maxVal) :
    parseUintLoop maxVal n (ds.map (fun d => UInt8.ofNat (48 + d))) =
      (ds.foldl (fun acc d => acc * 10 + d) n, none) := by
  induction ds generalizing n with
  | nil => simp [parseUintLoop]
  | cons d ds ih =>
    have hd : d < 10 := hds d (List.mem_cons_self d ds)
    simp only [List.foldl_cons] at hval ⊢
    have h1 : n * 10 + d ≤ maxVal := le_trans (le_foldl_decimal ds _) hval
    have hc : cutoff10 = 1844674407370955162 := by decide
    have h2 : ¬ n ≥ cutoff10 := by
      rw [hc]
      norm_num at hmax
      omega
    have h3 : ¬ n * 10 + d > maxVal := by omega
    have h4 : ¬ d ≥ 10 := by omega
    rw [List.map_cons, parseUintLoop, digitOf_decimal d hd]
    simp only [h4, h2, h3, if_false]
    exact ih (n * 10 + d) (fun x hx => hds x (List.mem_cons_of_mem d hx)) hval

theorem foldl_reverse_digits (n : Nat) :
    (Nat.digits 10 n).reverse.foldl (fun acc d => acc * 10 + d) 0 = n := by
  rw [List.foldl_reverse]
  have h := Nat.ofDigits_digits 10 n
  rw [Nat.ofDigits_eq_foldr] at h
  have h' : (fun (x y : Nat) => y * 10 + x) = (fun (x y : Nat) => x + 10 * y) := by
    funext x y; ring
  rw [h']
  simpa using h

/-- The base-10 text of a number that fits `bitSize ≤ 64` bits is parsed back
to the number by `strconv.ParseUint`. -/
theorem ParseUint_decimalText (n bitSize : Nat) (hb : bitSize ≤ 64) (hn : n < 2 ^ bitSize) :
    ParseUint (decimalText n) bitSize = (n, none) := by
  have hpow : 2 ^ bitSize ≤ 2 ^ 64 := Nat.pow_le_pow_right (by norm_num) hb
  have hmax : 2 ^ bitSize - 1 ≤ 2 ^ 64 - 1 := Nat.sub_le_sub_right hpow 1
  by_cases h0 : n = 0
  · subst h0
    have h48 : ([48] : List UInt8) = [0].map (fun d => UInt8.ofNat (48 + d)) := by decide
    have hne : ([48] : List UInt8) ≠ [] := by decide
    rw [ParseUint, decimalText, if_pos rfl, if_neg hne, h48,
      parseUintLoop_digits _ hmax [0] 0 (by simp) (by simp)]
    simp
  · have hne : (Nat.digits 10 n).reverse.map (fun d => UInt8.ofNat (48 + d)) ≠ [] := by
      simp [Nat.digits_ne_nil_iff_ne_zero, h0]
    have hds : ∀ d ∈ (Nat.digits 10 n).reverse, d < 10 := by
      intro d hd
      exact Nat.digits_lt_base (by norm_num) (List.mem_reverse.mp hd)
    have hval : (Nat.digits 10 n).reverse.foldl (fun acc d => acc * 10 + d) 0 ≤
        2 ^ bitSize - 1 := by
      rw [foldl_reverse_digits]; omega
    rw [ParseUint, decimalText, if_neg h0, if_neg hne,
      parseUintLoop_digits _ hmax _ 0 hds hval, foldl_reverse_digits]

/-- If some attribute under the `NetworkDescriptor` key is refused, the
loop of `BurnLockEventToCosmosMsg` returns the empty message with one of the
two network errors; when all values under that key parse, the error is
`network id is invalid`. -/
theorem burnLockLoop_refused (E : ParserEnv) (hkeys : E.ProphecyIDKey ≠ E.NetworkDescriptorKey)
    (attrs : List EventAttribute) (pid : Bytes) (nd num : Nat)
    (hbad : ∃ a ∈ attrs, a.Key = E.NetworkDescriptorKey ∧ ¬ networkValueGood E a) :
    (burnLockLoop E attrs pid nd num = ({}, some "network id can't parse") ∨
      burnLockLoop E attrs pid nd num = ({}, some "network id is invalid")) ∧
    ((∀ b ∈ attrs, b.Key = E.NetworkDescriptorKey → (ParseUint b.Value 32).2 = none) →
      burnLockLoop E attrs pid nd num = ({}, some "network id is invalid")) := by
  induction attrs generalizing pid nd num with
  | nil =>
    obtain ⟨a, ha, _⟩ := hbad
    cases ha
  | cons a attrs ih =>
    have htail : ¬ (a.Key = E.NetworkDescriptorKey ∧ ¬ networkValueGood E a) →
        ∃ b ∈ attrs, b.Key = E.NetworkDescriptorKey ∧ ¬ networkValueGood E b := by
      intro hna
      obtain ⟨b, hb, hb1, hb2⟩ := hbad
      rcases List.mem_cons.mp hb with rfl | hb'
      · exact absurd ⟨hb1, hb2⟩ hna
      · exact ⟨b, hb', hb1, hb2⟩
    have hall : ∀ {P : EventAttribute → Prop}, (∀ b ∈ a :: attrs, P b) → ∀ b ∈ attrs, P b :=
      fun h b hb => h b (List.mem_cons_of_mem a hb)
    by_cases h1 : a.Key = E.ProphecyIDKey
    · have h2 : a.Key ≠ E.NetworkDescriptorKey := fun h => hkeys (h1.symm.trans h)
      rw [burnLockLoop_cons_prophecy E a _ pid nd num h1]
      have := ih a.Value nd (num + 1) (htail (fun h => h2 h.1))
      exact ⟨this.1, fun h => this.2 (hall h)⟩
    · by_cases h2 : a.Key = E.NetworkDescriptorKey
      · rw [burnLockLoop_cons_network E a _ pid nd num h1 h2]
        by_cases hp : (ParseUint a.Value 32).2 = none
        · rw [if_neg (by simp [hp])]
          by_cases hv : E.IsValid (int32OfUint32 (toUint32 (ParseUint a.Value 32).1)) = false
          · rw [if_pos hv]
            exact ⟨Or.inr rfl, fun _ => rfl⟩
          · rw [if_neg hv]
            have hgood : networkValueGood E a := ⟨hp, by simpa using hv⟩
            have := ih pid (toUint32 (ParseUint a.Value 32).1) (num + 1)
              (htail (fun h => h.2 hgood))
            exact ⟨this.1, fun h => this.2 (hall h)⟩
        · rw [if_pos hp]
          exact ⟨Or.inl rfl, fun h => absurd (h a (List.mem_cons_self a attrs) h2) hp⟩
      · rw [burnLockLoop_cons_other E a _ pid nd num h1 h2]
        have := ih pid nd num (htail (fun h => h2 h.1))
        exact ⟨this.1, fun h => this.2 (hall h)⟩

theorem int32OfUint32_of_lt (n : Nat) (hn : n < 2 ^ 31) : int32OfUint32 (toUint32 n) = (n : Int) := by
  have h1 : n % 2 ^ 32 = n := Nat.mod_eq_of_lt (by omega)
  unfold int32OfUint32 toUint32
  rw [Nat.mod_mod, h1, if_pos hn]

/-- An attribute under the `NetworkDescriptor` key whose value parses to an
unrecognized network, reached through a prefix whose values under that key
all parse, makes the loop return `network id is invalid`. -/
theorem burnLockLoop_invalid (E : ParserEnv) (hkeys : E.ProphecyIDKey ≠ E.NetworkDescriptorKey)
    (xs ys : List EventAttribute) (a : EventAttribute) (pid : Bytes) (nd num : Nat)
    (hk : a.Key = E.NetworkDescriptorKey) (hparse : (ParseUint a.Value 32).2 = none)
    (hinv : E.IsValid (int32OfUint32 (toUint32 (ParseUint a.Value 32).1)) = false)
    (hxs : ∀ b ∈ xs, b.Key = E.NetworkDescriptorKey → (ParseUint b.Value 32).2 = none) :
    burnLockLoop E (xs ++ a :: ys) pid nd num = ({}, some "network id is invalid") := by
  induction xs generalizing pid nd num with
  | nil =>
    have h1 : a.Key ≠ E.ProphecyIDKey := fun h => hkeys (h.symm.trans hk)
    rw [List.nil_append, burnLockLoop_cons_network E a _ pid nd num h1 hk,
      if_neg (by simp [hparse]), if_pos hinv]
  | cons b xs ih =>
    have hxs' : ∀ c ∈ xs, c.Key = E.NetworkDescriptorKey → (ParseUint c.Value 32).2 = none :=
      fun c hc => hxs c (List.mem_cons_of_mem b hc)
    rw [List.cons_append]
    by_cases h1 : b.Key = E.ProphecyIDKey
    · rw [burnLockLoop_cons_prophecy E b _ pid nd num h1]
      exact ih _ _ _ hxs'
    · by_cases h2 : b.Key = E.NetworkDescriptorKey
      · rw [burnLockLoop_cons_network E b _ pid nd num h1 h2,
          if_neg (by simp [hxs b (List.mem_cons_self b xs) h2])]
        by_cases hv : E.IsValid (int32OfUint32 (toUint32 (ParseUint b.Value 32).1)) = false
        · rw [if_pos hv]
        · rw [if_neg hv]
          exact ih _ _ _ hxs'
      · rw [burnLockLoop_cons_other E b _ pid nd num h1 h2]
        exact ih _ _ _ hxs'

theorem int32OfUint32_toUint32 (u : Nat) : int32OfUint32 (toUint32 u) = int32OfUint32 u := by
  unfold int32OfUint32 toUint32
  rw [Nat.mod_mod]

theorem submissions_append (t u : List Action) :
    submissions (t ++ u) = submissions t ++ submissions u := by
  induction t with
  | nil => rfl
  | cons a t ih => cases a <;> simp [submissions, ih]

theorem processEvents_append {F : Type} (R : RelayEnv F) (sub : CosmosSub) (txFactory : F)
    (es fs : List AbciEvent) :
    processEvents R sub txFactory (es ++ fs) =
      processEvents R sub txFactory es ++ processEvents R sub txFactory fs := by
  induction es with
  | nil => rfl
  | cons e es ih => simp [processEvents, ih]

/-- The claim of an accepted event: every field, in terms of the event. -/
theorem EthereumEventToEthBridgeClaim_accepted (X : EthEnv) (valAddr : Bytes)
    (event : EthereumEvent) (EthereumToSifchain : GoString → GoString) (claim : EthBridgeClaim)
    (h : EthereumEventToEthBridgeClaim X valAddr event EthereumToSifchain = some (claim, none)) :
    claim =
      { NetworkDescriptor := event.NetworkDescriptor
        BridgeContractAddress := X.EthereumAddressString (X.Hex event.BridgeContractAddress)
        Nonce := bigIntInt64 event.Nonce
        TokenContractAddress := X.EthereumAddressString (X.Hex event.Token)
        Symbol := if event.ClaimType = ClaimType.CLAIM_TYPE_BURN then
          EthereumToSifchain (X.ToLower event.Symbol) else X.ToLower event.Symbol
        EthereumSender := X.EthereumAddressString (X.Hex event.From)
        ValidatorAddress := X.ValAddressString valAddr
        CosmosReceiver := X.AccAddressString (X.AccAddressFromBech32 event.To).1
        Amount := some event.Value
        ClaimType := event.ClaimType
        Decimals := (event.Decimals.toNat : Int)
        TokenName := event.Name
        DenomHash := X.GetDenomHash event.NetworkDescriptor
          (X.EthereumAddressString (X.Hex event.Token)) (event.Decimals.toNat : Int)
          event.Name event.Symbol } := by
  unfold EthereumEventToEthBridgeClaim at h
  rcases hto : X.AccAddressFromBech32 event.To with ⟨r, e⟩
  rw [hto] at h
  cases e with
  | some e => simp at h
  | none =>
    by_cases hr : r = []
    · simp [hr] at h
    · by_cases hbig : 2 ^ X.maxBitLen ≤ event.Value.natAbs
      · cases hk : event.ClaimType
        · simp [hr, hk, NewIntFromBigInt, hbig] at h
        · simp [hr, hk, NewIntFromBigInt, hbig] at h
        · by_cases hc : X.ToLower event.Symbol = lit "eth" ∧ isZeroAddress event.Token = false
          · simp [hr, hk, NewIntFromBigInt, hbig] at h
            rw [if_pos hc] at h
            simp at h
          · simp [hr, hk, NewIntFromBigInt, hbig] at h
            rw [if_neg hc] at h
            simp at h
      · cases hk : event.ClaimType
        · simp [hr, hk, NewIntFromBigInt, hbig] at h
          rw [← h]; simp
        · simp [hr, hk, NewIntFromBigInt, hbig] at h
          rw [← h]; simp
        · by_cases hc : X.ToLower event.Symbol = lit "eth" ∧ isZeroAddress event.Token = false
          · simp [hr, hk, NewIntFromBigInt, hbig] at h
            rw [if_pos hc] at h
            simp at h
          · simp [hr, hk, NewIntFromBigInt, hbig] at h
            rw [if_neg hc] at h
            simp at h
            rw [← h]; simp

/-- An event with a valid receiver, which the spoofing guard lets through and
whose value fits an `sdk.Int`, is accepted, with the claim below. -/
theorem EthereumEventToEthBridgeClaim_accepts (X : EthEnv) (valAddr : Bytes)
    (event : EthereumEvent) (EthereumToSifchain : GoString → GoString) (recipient : Bytes)
    (hto : X.AccAddressFromBech32 event.To = (recipient, none)) (hne : recipient ≠ [])
    (hguard : ¬ (event.ClaimType = ClaimType.CLAIM_TYPE_LOCK ∧
      X.ToLower event.Symbol = lit "eth" ∧ isZeroAddress event.Token = false))
    (hfit : event.Value.natAbs < 2 ^ X.maxBitLen) :
    EthereumEventToEthBridgeClaim X valAddr event EthereumToSifchain =
      some ({ NetworkDescriptor := event.NetworkDescriptor
              BridgeContractAddress :=
                X.EthereumAddressString (X.Hex event.BridgeContractAddress)
              Nonce := bigIntInt64 event.Nonce
              TokenContractAddress := X.EthereumAddressString (X.Hex event.Token)
              Symbol := if event.ClaimType = ClaimType.CLAIM_TYPE_BURN then
                EthereumToSifchain (X.ToLower event.Symbol) else X.ToLower event.Symbol
              EthereumSender := X.EthereumAddressString (X.Hex event.From)
              ValidatorAddress := X.ValAddressString valAddr
              CosmosReceiver := X.AccAddressString recipient
              Amount := some event.Value
              ClaimType := event.ClaimType
              Decimals := (event.Decimals.toNat : Int)
              TokenName := event.Name
              DenomHash := X.GetDenomHash event.NetworkDescriptor
                (X.EthereumAddressString (X.Hex event.Token)) (event.Decimals.toNat : Int)
                event.Name event.Symbol }, none) := by
  have hbig : ¬ 2 ^ X.maxBitLen ≤ event.Value.natAbs := by omega
  unfold EthereumEventToEthBridgeClaim
  rw [hto]
  cases hk : event.ClaimType
  · simp [hne, NewIntFromBigInt, hbig]
  · simp [hne, NewIntFromBigInt, hbig]
  · have hc : ¬ (X.ToLower event.Symbol = lit "eth" ∧ isZeroAddress event.Token = false) :=
      fun h => hguard ⟨hk, h⟩
    simp only [hne, if_false]
    simp only [Bool.not_eq_true]
    rw [if_neg hc]
    simp [NewIntFromBigInt, hbig]

/-- The three outcomes of the loop body for one event: the event is signed
and submitted, its message fails to build, or it is dropped. -/
theorem processEvent_eq {F : Type} (R : RelayEnv F) (sub : CosmosSub) (txFactory : F)
    (event : AbciEvent) :
    processEvent R sub txFactory event =
      Action.classified event.Typ (getOracleClaimType R.EventString event.Typ) ::
        (if (getOracleClaimType R.EventString event.Typ = Event.MsgBurn ∨
              getOracleClaimType R.EventString event.Typ = Event.MsgLock) ∧
            (BurnLockEventToCosmosMsg R.toParserEnv event.Attributes).2 = none ∧
            (BurnLockEventToCosmosMsg R.toParserEnv event.Attributes).1.NetworkDescriptor =
              sub.NetworkDescriptor then
          witnessSignProphecyID R sub txFactory
            (BurnLockEventToCosmosMsg R.toParserEnv event.Attributes).1
        else if (getOracleClaimType R.EventString event.Typ = Event.MsgBurn ∨
              getOracleClaimType R.EventString event.Typ = Event.MsgLock) ∧
            (BurnLockEventToCosmosMsg R.toParserEnv event.Attributes).2 ≠ none then
          [Action.logged "sifchain client failed in get burn lock message from event."]
        else []) := by
  unfold processEvent
  by_cases hk : getOracleClaimType R.EventString event.Typ = Event.MsgBurn ∨
      getOracleClaimType R.EventString event.Typ = Event.MsgLock
  · simp only [hk, if_true, true_and]
    rcases hb : BurnLockEventToCosmosMsg R.toParserEnv event.Attributes with ⟨m, e⟩
    cases e with
    | none =>
      by_cases hn : m.NetworkDescriptor = sub.NetworkDescriptor
      · simp [hn]
      · simp [hn]
    | some e => simp
  · simp only [hk, if_false, false_and]

theorem processTxs_append {F : Type} (R : RelayEnv F) (sub : CosmosSub) (txFactory : F)
    (ts us : List ResponseDeliverTx) :
    processTxs R sub txFactory (ts ++ us) =
      processTxs R sub txFactory ts ++ processTxs R sub txFactory us := by
  induction ts with
  | nil => rfl
  | cons t ts ih => simp [processTxs, ih]

/-- The actions for the transactions of a block are those for its events,
taken in their stored order. -/
theorem processTxs_eq_processEvents {F : Type} (R : RelayEnv F) (sub : CosmosSub)
    (txFactory : F) (ts : List ResponseDeliverTx) :
    processTxs R sub txFactory ts = processEvents R sub txFactory (allEvents ts) := by
  induction ts with
  | nil => rfl
  | cons t ts ih => simp [processTxs, allEvents, processEvents_append, ih]

theorem digitOf_of_digit (c : UInt8) (h : 48 ≤ c.toNat ∧ c.toNat ≤ 57) :
    digitOf c = some (c.toNat - 48) := by
  unfold digitOf
  rw [if_pos h]

theorem digitOf_of_not_digit (c : UInt8) (h : ¬ (48 ≤ c.toNat ∧ c.toNat ≤ 57)) :
    digitOf c = none ∨ ∃ d, digitOf c = some d ∧ 10 ≤ d := by
  unfold digitOf
  rw [if_neg h]
  by_cases h2 : 97 ≤ (strconvLower c).toNat ∧ (strconvLower c).toNat ≤ 122
  · rw [if_pos h2]
    exact Or.inr ⟨_, rfl, by omega⟩
  · rw [if_neg h2]
    exact Or.inl rfl

theorem le_foldl_decimalValue (s : List UInt8) (n : Nat) :
    n ≤ s.foldl (fun acc c => acc * 10 + (c.toNat - 48)) n := by
  induction s generalizing n with
  | nil => simp
  | cons c s ih =>
    simp only [List.foldl_cons]
    exact le_trans (by omega) (ih (n * 10 + (c.toNat - 48)))

/-- The loop of `strconv.ParseUint` succeeds exactly on texts of decimal
digits whose value, continued from the accumulator, is at most `maxVal`, and
it returns that value. -/
theorem parseUintLoop_eq_none_iff (maxVal : Nat) (hmax : maxVal ≤ 2 ^ 64 - 1) (s : List UInt8)
    (n : Nat) (hn : n ≤ maxVal) :
    ((parseUintLoop maxVal n s).2 = none ↔
      (∀ c ∈ s, 48 ≤ c.toNat ∧ c.toNat ≤ 57) ∧
        s.foldl (fun acc c => acc * 10 + (c.toNat - 48)) n ≤ maxVal) ∧
    ((parseUintLoop maxVal n s).2 = none →
      (parseUintLoop maxVal n s).1 = s.foldl (fun acc c => acc * 10 + (c.toNat - 48)) n) := by
  have hc : cutoff10 = 1844674407370955162 := by decide
  norm_num at hmax
  induction s generalizing n with
  | nil => simp [parseUintLoop, hn]
  | cons c s ih =>
    have hge := le_foldl_decimalValue s (n * 10 + (c.toNat - 48))
    by_cases hd : 48 ≤ c.toNat ∧ c.toNat ≤ 57
    · have h10 : ¬ c.toNat - 48 ≥ 10 := by omega
      rw [parseUintLoop, digitOf_of_digit c hd]
      simp only [h10, if_false, List.foldl_cons, List.forall_mem_cons]
      by_cases h1 : n ≥ cutoff10
      · rw [if_pos h1]
        rw [hc] at h1
        refine ⟨⟨fun h => by simp at h, fun h => by omega⟩, fun h => by simp at h⟩
      · rw [if_neg h1]
        by_cases h2 : n * 10 + (c.toNat - 48) > maxVal
        · rw [if_pos h2]
          refine ⟨⟨fun h => by simp at h, fun h => by omega⟩, fun h => by simp at h⟩
        · rw [if_neg h2]
          have := ih (n * 10 + (c.toNat - 48)) (by omega)
          refine ⟨⟨fun h => ⟨⟨hd, (this.1.mp h).1⟩, (this.1.mp h).2⟩,
            fun h => this.1.mpr ⟨h.1.2, h.2⟩⟩, this.2⟩
    · have hfalse : ¬ ((∀ x ∈ c :: s, 48 ≤ x.toNat ∧ x.toNat ≤ 57) ∧
          (c :: s).foldl (fun acc c => acc * 10 + (c.toNat - 48)) n ≤ maxVal) :=
        fun h => hd (h.1 c (List.mem_cons_self c s))
      rw [parseUintLoop]
      rcases digitOf_of_not_digit c hd with h0 | ⟨d, h0, hd10⟩
      · rw [h0]
        refine ⟨⟨fun h => by simp at h, fun h => absurd h hfalse⟩, fun h => by simp at h⟩
      · rw [h0]
        simp only [hd10, ge_iff_le, if_true]
        refine ⟨⟨fun h => by simp at h, fun h => absurd h hfalse⟩, fun h => by simp at h⟩

/-- The function `strconv.ParseUint(s, 10, bitSize)` returns no error exactly
on the texts that write an unsigned integer of `bitSize` bits, and then it
returns the integer written. -/
theorem ParseUint_eq_none_iff (s : GoString) (bitSize : Nat) (hb : bitSize ≤ 64) :
    ((ParseUint s bitSize).2 = none ↔ writesUnsigned s bitSize) ∧
    ((ParseUint s bitSize).2 = none → (ParseUint s bitSize).1 = decimalValue s) := by
  have hpow : 2 ^ bitSize ≤ 2 ^ 64 := Nat.pow_le_pow_right (by norm_num) hb
  have hpos : 0 < 2 ^ bitSize := Nat.pow_pos (by norm_num)
  have hmax : 2 ^ bitSize - 1 ≤ 2 ^ 64 - 1 := Nat.sub_le_sub_right hpow 1
  unfold ParseUint writesUnsigned decimalValue
  by_cases hs : s = []
  · simp [hs]
  · rw [if_neg hs]
    have h := parseUintLoop_eq_none_iff (2 ^ bitSize - 1) hmax s 0 (Nat.zero_le _)
    refine ⟨?_, h.2⟩
    rw [h.1]
    constructor
    · intro h'
      exact ⟨hs, h'.1, by omega⟩
    · intro h'
      exact ⟨h'.2.1, by omega⟩

theorem wrapInt64_of_range (i : Int) (h1 : -2 ^ 63 ≤ i) (h2 : i < 2 ^ 63) : wrapInt64 i = i := by
  unfold wrapInt64
  norm_num at h1 h2 ⊢
  omega

theorem fetchedHeights_append (t u : List Action) :
    fetchedHeights (t ++ u) = fetchedHeights t ++ fetchedHeights u := by
  induction t with
  | nil => rfl
  | cons a t ih => cases a <;> simp [fetchedHeights, ih]

theorem classifications_append (t u : List Action) :
    classifications (t ++ u) = classifications t ++ classifications u := by
  induction t with
  | nil => rfl
  | cons a t ih => cases a <;> simp [classifications, ih]

theorem witnessSignProphecyID_reads {F : Type} (R : RelayEnv F) (sub : CosmosSub)
    (txFactory : F) (m : CosmosMsg) :
    fetchedHeights (witnessSignProphecyID R sub txFactory m) = [] ∧
      classifications (witnessSignProphecyID R sub txFactory m) = [] := by
  unfold witnessSignProphecyID
  simp only [fetchedHeights_append, classifications_append]
  constructor
  · split <;> split <;> simp [fetchedHeights]
  · split <;> split <;> simp [classifications]

theorem processEvent_reads {F : Type} (R : RelayEnv F) (sub : CosmosSub) (txFactory : F)
    (event : AbciEvent) :
    fetchedHeights (processEvent R sub txFactory event) = [] ∧
      classifications (processEvent R sub txFactory event) =
        [(event.Typ, getOracleClaimType R.EventString event.Typ)] := by
  rw [processEvent_eq]
  have hw := witnessSignProphecyID_reads R sub txFactory
    (BurnLockEventToCosmosMsg R.toParserEnv event.Attributes).1
  constructor
  · simp only [fetchedHeights]
    split
    · exact hw.1
    · split <;> rfl
  · simp only [classifications]
    split
    · rw [hw.2]
    · split <;> rfl

theorem processEvents_reads {F : Type} (R : RelayEnv F) (sub : CosmosSub) (txFactory : F)
    (events : List AbciEvent) :
    fetchedHeights (processEvents R sub txFactory events) = [] ∧
      classifications (processEvents R sub txFactory events) =
        events.map (fun e => (e.Typ, getOracleClaimType R.EventString e.Typ)) := by
  induction events with
  | nil => exact ⟨rfl, rfl⟩
  | cons e es ih =>
    have he := processEvent_reads R sub txFactory e
    simp only [processEvents, fetchedHeights_append, classifications_append, he.1, he.2,
      ih.1, ih.2, List.map_cons, List.nil_append, List.singleton_append]
    exact ⟨trivial, trivial⟩

theorem scanTrace_reads {F : Type} (R : RelayEnv F) (sub : CosmosSub) (txFactory : F)
    (blocks : Nat → Int → ResultBlockResults) (b : Int) (start n : Nat) :
    fetchedHeights (scanTrace R sub txFactory blocks b start n) = heightsFrom b n ∧
      classifications (scanTrace R sub txFactory blocks b start n) =
        (scanEvents blocks b start n).map
          (fun e => (e.Typ, getOracleClaimType R.EventString e.Typ)) := by
  induction n generalizing b start with
  | zero => exact ⟨rfl, rfl⟩
  | succ n ih =>
    have hp := processEvents_reads R sub txFactory (allEvents (blocks start b).TxsResults)
    have hi := ih (b + 1) (start + 1)
    have e1 : scanTrace R sub txFactory blocks b start (n + 1) =
        Action.fetched b true :: (processTxs R sub txFactory (blocks start b).TxsResults ++
          scanTrace R sub txFactory blocks (b + 1) (start + 1) n) := rfl
    have e2 : scanEvents blocks b start (n + 1) =
        allEvents (blocks start b).TxsResults ++ scanEvents blocks (b + 1) (start + 1) n := rfl
    rw [e1, e2, processTxs_eq_processEvents]
    simp only [heightsFrom, fetchedHeights, classifications,
      fetchedHeights_append, classifications_append, hp.1, hp.2,
      hi.1, hi.2, List.map_append, List.nil_append]
    exact ⟨trivial, trivial⟩

/-- The scan over heights whose fetches all succeed: from the height `b`,
with the `n` heights up to `toBlockNumber` left, the loop ends within `n + 1`
iterations, having done the actions of `scanTrace`. -/
theorem scanLoop_all_fetched {F : Type} (R : RelayEnv F) (sub : CosmosSub) (txFactory : F)
    (client : Client) (blocks : Nat → Int → ResultBlockResults)
    (hfetch : ∀ n h, client n h = some (blocks n h)) (toBlockNumber : Int)
    (hto : toBlockNumber < 2 ^ 63 - 1) (n : Nat) (b : Int) (calls : Nat) (trace : List Action)
    (fuel : Nat) (hb : -2 ^ 63 ≤ b) (hn : (toBlockNumber - b + 1).toNat = n) (hfuel : n < fuel) :
    scanLoop R sub txFactory client toBlockNumber fuel
        { blockNumber := b, calls := calls, trace := trace } =
      some { blockNumber := b + n, calls := calls + n,
             trace := trace ++ scanTrace R sub txFactory blocks b calls n } := by
  induction n generalizing b calls trace fuel with
  | zero =>
    have hgt : ¬ b ≤ toBlockNumber := by omega
    obtain ⟨fuel, rfl⟩ : ∃ f, fuel = f + 1 := ⟨fuel - 1, by omega⟩
    simp [scanLoop, scanStep, hgt, scanTrace]
  | succ n ih =>
    have hle : b ≤ toBlockNumber := by omega
    obtain ⟨fuel, rfl⟩ : ∃ f, fuel = f + 1 := ⟨fuel - 1, by omega⟩
    have hw : wrapInt64 (b + 1) = b + 1 := wrapInt64_of_range (b + 1) (by omega) (by omega)
    rw [scanLoop]
    simp only [scanStep, hle, if_true, hfetch, hw]
    rw [ih (b + 1) (calls + 1) _ fuel (by omega) (by omega) (by omega)]
    simp only [scanTrace, List.append_assoc, List.cons_append]
    congr 2
    · push_cast; ring
    · omega

theorem mem_heightsFrom (b : Int) (n : Nat) (h : Int) :
    h ∈ heightsFrom b n ↔ b ≤ h ∧ h < b + n := by
  induction n generalizing b with
  | zero => simp [heightsFrom]
  | succ n ih =>
    simp only [heightsFrom, List.mem_cons, ih]
    push_cast
    omega

theorem take_append_drop_insert {α : Type} (P X T U : List α) :
    (P ++ (X ++ T)) ++ U =
      ((P ++ T) ++ U).take P.length ++ X ++ ((P ++ T) ++ U).drop P.length := by
  rw [List.append_assoc P T U, List.take_left, List.drop_left]
  simp

/-- The scan reads its trace nowhere: with a trace `t ++ u` in place of `u`
an iteration does the same, with `t` before its trace. -/
theorem scanStep_prepend {F : Type} (R : RelayEnv F) (sub : CosmosSub) (txFactory : F)
    (client : Client) (toBlockNumber : Int) (b : Int) (calls : Nat) (t u : List Action) :
    scanStep R sub txFactory client toBlockNumber
        { blockNumber := b, calls := calls, trace := t ++ u } =
      (scanStep R sub txFactory client toBlockNumber
        { blockNumber := b, calls := calls, trace := u }).map
        (fun r => { blockNumber := r.blockNumber, calls := r.calls, trace := t ++ r.trace }) := by
  unfold scanStep
  by_cases hle : b ≤ toBlockNumber
  · simp only [hle, if_true]
    cases client calls b <;> simp [List.append_assoc]
  · simp [hle]

theorem scanIter_prepend {F : Type} (R : RelayEnv F) (sub : CosmosSub) (txFactory : F)
    (client : Client) (toBlockNumber : Int) (k : Nat) (b : Int) (calls : Nat)
    (t u : List Action) :
    scanIter R sub txFactory client toBlockNumber k
        { blockNumber := b, calls := calls, trace := t ++ u } =
      (scanIter R sub txFactory client toBlockNumber k
        { blockNumber := b, calls := calls, trace := u }).map
        (fun r => { blockNumber := r.blockNumber, calls := r.calls, trace := t ++ r.trace }) := by
  induction k generalizing b calls u with
  | zero => simp [scanIter]
  | succ k ih =>
    rw [scanIter, scanIter, scanStep_prepend]
    cases scanStep R sub txFactory client toBlockNumber
        { blockNumber := b, calls := calls, trace := u } with
    | none => rfl
    | some r => exact ih r.blockNumber r.calls r.trace

theorem scanStep_calls {F : Type} (R : RelayEnv F) (sub : CosmosSub) (txFactory : F)
    (client : Client) (toBlockNumber : Int) (s s' : ScanState)
    (h : scanStep R sub txFactory client toBlockNumber s = some s') :
    s'.calls = s.calls + 1 := by
  unfold scanStep at h
  split at h
  · split at h <;> simp at h <;> rw [← h]
  · simp at h

/-- The scan asks the client only at the call numbers from `s.calls` on. -/
theorem scanIter_client_congr {F : Type} (R : RelayEnv F) (sub : CosmosSub) (txFactory : F)
    (c c' : Client) (toBlockNumber : Int) (k : Nat) (s : ScanState)
    (hagree : ∀ n, s.calls ≤ n → ∀ h, c n h = c' n h) :
    scanIter R sub txFactory c toBlockNumber k s =
      scanIter R sub txFactory c' toBlockNumber k s := by
  induction k generalizing s with
  | zero => rfl
  | succ k ih =>
    have hstep : scanStep R sub txFactory c toBlockNumber s =
        scanStep R sub txFactory c' toBlockNumber s := by
      unfold scanStep
      rw [hagree s.calls (Nat.le_refl _)]
    rw [scanIter, scanIter, ← hstep]
    cases hs : scanStep R sub txFactory c toBlockNumber s with
    | none => rfl
    | some s' =>
      have hc := scanStep_calls R sub txFactory c toBlockNumber s s' hs
      exact ih s' (fun n hn h => hagree n (by omega) h)

theorem bytesCompare_eq_zero_iff (a b : Bytes) : bytesCompare a b = 0 ↔ a = b := by
  induction a generalizing b with
  | nil => cases b <;> simp [bytesCompare]
  | cons x xs ih =>
    cases b with
    | nil => simp [bytesCompare]
    | cons y ys =>
      rw [bytesCompare]
      by_cases h1 : x.toNat < y.toNat
      · rw [if_pos h1]
        have hne : x ≠ y := fun h => by rw [h] at h1; exact Nat.lt_irrefl _ h1
        simp [hne]
      · rw [if_neg h1]
        by_cases h2 : y.toNat < x.toNat
        · rw [if_pos h2]
          have hne : x ≠ y := fun h => by rw [h] at h2; exact Nat.lt_irrefl _ h2
          simp [hne]
        · rw [if_neg h2, ih ys]
          have hxy : x = y :=
            UInt8.eq_of_val_eq (Fin.eq_of_val_eq (Nat.le_antisymm (Nat.le_of_not_lt h2)
              (Nat.le_of_not_lt h1)))
          simp [hxy]

/-! ## The claims -/

/-- C1: in `ProcessLockBurnWithScope`, while the fetch of the current height
`H` fails, every iteration fetches `H` again: after `k` failed fetches the loop
variable is still `H` and the only actions done are the `k` failed fetches
with their log lines, so no event of any height has been classified, signed
or submitted.  The iteration after them fetches `H` once more, and the loop
variable leaves `H` only if that fetch succeeds. -/
theorem ProcessLockBurnWithScope_retries_failed_height {F : Type} (R : RelayEnv F)
    (sub : CosmosSub) (txFactory : F) (client : Client) (toBlockNumber : Int) (s : ScanState)
    (k : Nat) (hle : s.blockNumber ≤ toBlockNumber)
    (hfail : ∀ i, i < k → client (s.calls + i) s.blockNumber = none) :
    scanIter R sub txFactory client toBlockNumber k s =
        some { blockNumber := s.blockNumber, calls := s.calls + k,
               trace := s.trace ++ failedFetches s.blockNumber k } ∧
      ∃ s' rest, scanIter R sub txFactory client toBlockNumber (k + 1) s = some s' ∧
        s'.trace = s.trace ++ failedFetches s.blockNumber k ++
          Action.fetched s.blockNumber (client (s.calls + k) s.blockNumber).isSome :: rest ∧
        (s'.blockNumber ≠ s.blockNumber →
          (client (s.calls + k) s.blockNumber).isSome = true) ∧
        ((client (s.calls + k) s.blockNumber).isSome = false →
          submissions s'.trace = submissions s.trace) := by
  have hk := scanIter_failing R sub txFactory client toBlockNumber k s hle hfail
  refine ⟨hk, ?_⟩
  rw [scanIter_succ, hk]
  cases hc : client (s.calls + k) s.blockNumber with
  | none =>
    refine ⟨{ blockNumber := s.blockNumber, calls := s.calls + k + 1,
              trace := s.trace ++ failedFetches s.blockNumber k ++
                [Action.fetched s.blockNumber false,
                 Action.logged "sifchain client failed to get a block."] },
      [Action.logged "sifchain client failed to get a block."], ?_, ?_, ?_, ?_⟩
    · simp only [Option.bind, scanStep, hle, if_true, hc]
    · simp
    · intro h; exact absurd rfl h
    · intro _
      have hsub : ∀ (t : List Action) (h : Int) (n : Nat),
          submissions (t ++ failedFetches h n) = submissions t := by
        intro t h n
        induction t with
        | nil =>
          induction n with
          | zero => rfl
          | succ n ih => simpa [failedFetches, submissions] using ih
        | cons a t ih => cases a <;> simpa [submissions] using ih
      have h2 := hsub s.trace s.blockNumber (k + 1)
      rw [failedFetches_succ_right, ← List.append_assoc] at h2
      exact h2
  | some block =>
    refine ⟨{ blockNumber := wrapInt64 (s.blockNumber + 1), calls := s.calls + k + 1,
              trace := s.trace ++ failedFetches s.blockNumber k ++
                Action.fetched s.blockNumber true ::
                  processTxs R sub txFactory block.TxsResults },
      processTxs R sub txFactory block.TxsResults, ?_, ?_, ?_, ?_⟩
    · simp only [Option.bind, scanStep, hle, if_true, hc]
    · simp
    · intro _; rfl
    · intro h; simp at h

/-- C1, evaluated: with a client whose first two calls fail, two iterations
from height 5 leave the scan at height 5 with nothing but the two failed
fetches done, and the third iteration fetches height 5 again. -/
theorem ProcessLockBurnWithScope_retries_failed_height_witness :
    ((5 : Int) ≤ 6 ∧ ∀ i, i < 2 → exClient (0 + i) 5 = none) ∧
    (scanIter exRelayEnv exSub (lit "sifvaloper1", none) exClient 6 2
        { blockNumber := 5, calls := 0, trace := [] } =
        some { blockNumber := 5, calls := 0 + 2, trace := [] ++ failedFetches 5 2 } ∧
      ∃ s' rest, scanIter exRelayEnv exSub (lit "sifvaloper1", none) exClient 6 (2 + 1)
          { blockNumber := 5, calls := 0, trace := [] } = some s' ∧
        s'.trace = [] ++ failedFetches 5 2 ++
          Action.fetched 5 (exClient (0 + 2) 5).isSome :: rest ∧
        (s'.blockNumber ≠ 5 → (exClient (0 + 2) 5).isSome = true) ∧
        ((exClient (0 + 2) 5).isSome = false → submissions s'.trace = submissions [])) :=
  have h : ∀ i, i < 2 → exClient (0 + i) 5 = none := by
    intro i hi
    interval_cases i <;> rfl
  ⟨⟨by decide, h⟩,
    ProcessLockBurnWithScope_retries_failed_height exRelayEnv exSub (lit "sifvaloper1", none)
      exClient 6 { blockNumber := 5, calls := 0, trace := [] } 2 (by decide) h⟩

/-- C2, as stated, fails for a Burn event: the event `exEthEvent` of kind Burn
has a valid receiver, the lower-cased symbol `eth` and a token address that is
not the zero address, and it is accepted with no error. -/
theorem EthereumEventToEthBridgeClaim_burn_eth_accepted :
    exEthEnv.AccAddressFromBech32 (exEthEvent ClaimType.CLAIM_TYPE_BURN).To =
        (lit "sif1receiver", none) ∧
      exEthEnv.ToLower (exEthEvent ClaimType.CLAIM_TYPE_BURN).Symbol = lit "eth" ∧
      isZeroAddress (exEthEvent ClaimType.CLAIM_TYPE_BURN).Token = false ∧
      (EthereumEventToEthBridgeClaim exEthEnv (lit "sifvaloper1")
        (exEthEvent ClaimType.CLAIM_TYPE_BURN) exTranslate).map (fun r => r.2) = some none := by
  decide

/-- C2, amended: for every Lock event with a valid receiver, if the
lower-cased symbol is `eth` and the token address is not the zero address,
`EthereumEventToEthBridgeClaim` returns the empty claim and the error
`symbol "eth" must have null address set as token address`. -/
theorem EthereumEventToEthBridgeClaim_lock_spoofed (X : EthEnv) (valAddr : Bytes)
    (event : EthereumEvent) (EthereumToSifchain : GoString → GoString) (recipient : Bytes)
    (hkind : event.ClaimType = ClaimType.CLAIM_TYPE_LOCK)
    (hto : X.AccAddressFromBech32 event.To = (recipient, none)) (hne : recipient ≠ [])
    (hsym : X.ToLower event.Symbol = lit "eth")
    (htoken : isZeroAddress event.Token = false) :
    EthereumEventToEthBridgeClaim X valAddr event EthereumToSifchain =
      some ({}, some "symbol \"eth\" must have null address set as token address") := by
  simp [EthereumEventToEthBridgeClaim, hto, hne, hkind, hsym, htoken]

/-- C2 amended, evaluated at the Lock event `exEthEvent`. -/
theorem EthereumEventToEthBridgeClaim_lock_spoofed_witness :
    EthereumEventToEthBridgeClaim exEthEnv (lit "sifvaloper1")
        (exEthEvent ClaimType.CLAIM_TYPE_LOCK) exTranslate =
      some ({}, some "symbol \"eth\" must have null address set as token address") :=
  EthereumEventToEthBridgeClaim_lock_spoofed exEthEnv (lit "sifvaloper1")
    (exEthEvent ClaimType.CLAIM_TYPE_LOCK) exTranslate (lit "sif1receiver") rfl (by decide)
    (by decide) (by decide) (by decide)

/-- C3: when the key `ProphecyID` appears exactly once, with value `p`, and
the key `NetworkDescriptor` appears exactly once, with the base-10 text of a
recognized network `n` as its value, `BurnLockEventToCosmosMsg` returns no
error and the message `{NetworkDescriptor = n, ProphecyID = p}`, whatever the
other attributes and the order are. -/
theorem BurnLockEventToCosmosMsg_complete (E : ParserEnv) (attributes : List EventAttribute)
    (p : Bytes) (n : Nat) (hkeys : E.ProphecyIDKey ≠ E.NetworkDescriptorKey)
    (hp : attributes.filter (fun a => decide (a.Key = E.ProphecyIDKey)) =
      [{ Key := E.ProphecyIDKey, Value := p }])
    (hnd : attributes.filter (fun a => decide (a.Key = E.NetworkDescriptorKey)) =
      [{ Key := E.NetworkDescriptorKey, Value := decimalText n }])
    (hn : n < 2 ^ 31) (hvalid : E.IsValid (n : Int) = true) :
    BurnLockEventToCosmosMsg E attributes =
      ({ NetworkDescriptor := (n : Int), ProphecyID := p }, none) := by
  have hparse : ParseUint (decimalText n) 32 = (n, none) :=
    ParseUint_decimalText n 32 (by norm_num) (by omega)
  have hgood : ∀ a ∈ attributes, a.Key = E.NetworkDescriptorKey → networkValueGood E a := by
    intro a ha hk
    have hmem : a ∈ attributes.filter (fun a => decide (a.Key = E.NetworkDescriptorKey)) :=
      List.mem_filter.mpr ⟨ha, by simpa using hk⟩
    rw [hnd, List.mem_singleton] at hmem
    subst hmem
    refine ⟨by simp [hparse], ?_⟩
    simp only [hparse]
    rw [int32OfUint32_of_lt n hn]
    exact hvalid
  have h := burnLockLoop_append E hkeys attributes [] [] 0 0 hgood
  rw [List.append_nil] at h
  rw [BurnLockEventToCosmosMsg, h, hp, hnd, burnLockLoop_nil]
  simp only [List.foldl_cons, List.foldl_nil, List.length_singleton, hparse]
  rw [int32OfUint32_of_lt n hn]
  simp [NewCosmosMsg]

/-- C3, evaluated at the attributes `{prophecy_id: "abc123", network_id: "1"}`
with network 1 recognized: the message is `{1, bytes("abc123")}`. -/
theorem BurnLockEventToCosmosMsg_complete_witness :
    BurnLockEventToCosmosMsg exParserEnv
        [⟨lit "prophecy_id", lit "abc123"⟩, ⟨lit "network_id", lit "1"⟩] =
      ({ NetworkDescriptor := ((1 : Nat) : Int), ProphecyID := lit "abc123" }, none) :=
  BurnLockEventToCosmosMsg_complete exParserEnv
    [⟨lit "prophecy_id", lit "abc123"⟩, ⟨lit "network_id", lit "1"⟩] (lit "abc123") 1
    (by decide) (by decide) (by simp [decimalText]; decide) (by norm_num) (by decide)

/-- C4, as stated, fails twice.  A list with two `ProphecyID` attributes and no
`NetworkDescriptor` attribute is accepted, with network 0; and a list with no
`ProphecyID` attribute whose `NetworkDescriptor` value does not parse fails
with `network id can't parse`, not with `message not complete`. -/
theorem BurnLockEventToCosmosMsg_incomplete_counterexample :
    BurnLockEventToCosmosMsg exParserEnv
        [⟨lit "prophecy_id", lit "a"⟩, ⟨lit "prophecy_id", lit "b"⟩] =
      ({ NetworkDescriptor := 0, ProphecyID := lit "b" }, none) ∧
    BurnLockEventToCosmosMsg exParserEnv [⟨lit "network_id", lit "x"⟩] =
      ({}, some "network id can't parse") := by
  decide

/-- C4, amended: for an attribute list in which the keys `ProphecyID` and
`NetworkDescriptor` occur at most once each and one of them does not occur,
`BurnLockEventToCosmosMsg` returns the empty message and an error; the error
is `message not complete` when the `NetworkDescriptor` value, if there is
one, parses and names a recognized network, and it is one of the two network
errors otherwise. -/
theorem BurnLockEventToCosmosMsg_incomplete (E : ParserEnv) (attributes : List EventAttribute)
    (hkeys : E.ProphecyIDKey ≠ E.NetworkDescriptorKey)
    (hp : (attributes.filter (fun a => decide (a.Key = E.ProphecyIDKey))).length ≤ 1)
    (hnd : (attributes.filter (fun a => decide (a.Key = E.NetworkDescriptorKey))).length ≤ 1)
    (hmiss : attributes.filter (fun a => decide (a.Key = E.ProphecyIDKey)) = [] ∨
      attributes.filter (fun a => decide (a.Key = E.NetworkDescriptorKey)) = []) :
    ((∀ a ∈ attributes, a.Key = E.NetworkDescriptorKey → networkValueGood E a) →
      BurnLockEventToCosmosMsg E attributes = ({}, some "message not complete")) ∧
    (¬ (∀ a ∈ attributes, a.Key = E.NetworkDescriptorKey → networkValueGood E a) →
      BurnLockEventToCosmosMsg E attributes = ({}, some "network id can't parse") ∨
      BurnLockEventToCosmosMsg E attributes = ({}, some "network id is invalid")) := by
  constructor
  · intro hgood
    have h := burnLockLoop_append E hkeys attributes [] [] 0 0 hgood
    rw [List.append_nil] at h
    rw [BurnLockEventToCosmosMsg, h, burnLockLoop_nil]
    have hlt : 0 + (attributes.filter (fun a => decide (a.Key = E.ProphecyIDKey))).length +
        (attributes.filter (fun a => decide (a.Key = E.NetworkDescriptorKey))).length < 2 := by
      rcases hmiss with h0 | h0 <;> rw [h0] at * <;> simp <;> omega
    rw [if_pos hlt]
  · intro hbad
    have hex : ∃ a ∈ attributes, a.Key = E.NetworkDescriptorKey ∧ ¬ networkValueGood E a := by
      by_contra hcon
      apply hbad
      intro a ha hk
      by_contra hg
      exact hcon ⟨a, ha, hk, hg⟩
    exact (burnLockLoop_refused E hkeys attributes [] 0 0 hex).1

/-- C4 amended, evaluated at a list that holds only a `ProphecyID` attribute
and an attribute under another key. -/
theorem BurnLockEventToCosmosMsg_incomplete_witness :
    BurnLockEventToCosmosMsg exParserEnv
        [⟨lit "prophecy_id", lit "abc123"⟩, ⟨lit "amount", lit "5"⟩] =
      ({}, some "message not complete") :=
  (BurnLockEventToCosmosMsg_incomplete exParserEnv
    [⟨lit "prophecy_id", lit "abc123"⟩, ⟨lit "amount", lit "5"⟩]
    (by decide) (by decide) (by decide) (Or.inr (by decide))).1 (by decide)

/-- C5, as stated, fails on the error text: in the list below the second
`NetworkDescriptor` value parses to the unrecognized network 5, and the
function fails with `network id can't parse`, the error of the first one. -/
theorem BurnLockEventToCosmosMsg_unrecognized_counterexample :
    ParseUint (lit "5") 32 = (5, none) ∧ exParserEnv.IsValid (int32OfUint32 5) = false ∧
    BurnLockEventToCosmosMsg exParserEnv
        [⟨lit "network_id", lit "x"⟩, ⟨lit "network_id", lit "5"⟩] =
      ({}, some "network id can't parse") := by
  decide

/-- C5, amended: an attribute list `xs ++ a :: ys` in which `a` is under the
`NetworkDescriptor` key and its value parses to an unrecognized network is
refused with the empty message, whatever `xs` and `ys` hold: the error is
`network id is invalid` when every value under that key in `xs` parses, and
one of `network id is invalid`, `network id can't parse` in general. -/
theorem BurnLockEventToCosmosMsg_unrecognized (E : ParserEnv) (xs ys : List EventAttribute)
    (a : EventAttribute) (u : Nat) (hkeys : E.ProphecyIDKey ≠ E.NetworkDescriptorKey)
    (hk : a.Key = E.NetworkDescriptorKey) (hparse : ParseUint a.Value 32 = (u, none))
    (hinv : E.IsValid (int32OfUint32 u) = false) :
    (BurnLockEventToCosmosMsg E (xs ++ a :: ys) = ({}, some "network id is invalid") ∨
      BurnLockEventToCosmosMsg E (xs ++ a :: ys) = ({}, some "network id can't parse")) ∧
    ((∀ b ∈ xs, b.Key = E.NetworkDescriptorKey → (ParseUint b.Value 32).2 = none) →
      BurnLockEventToCosmosMsg E (xs ++ a :: ys) = ({}, some "network id is invalid")) := by
  have hp : (ParseUint a.Value 32).2 = none := by rw [hparse]
  have hv : E.IsValid (int32OfUint32 (toUint32 (ParseUint a.Value 32).1)) = false := by
    rw [hparse, int32OfUint32_toUint32]; exact hinv
  have hbad : ∃ b ∈ xs ++ a :: ys, b.Key = E.NetworkDescriptorKey ∧ ¬ networkValueGood E b :=
    ⟨a, by simp, hk, fun hg => by rw [hg.2] at hv; exact Bool.noConfusion hv⟩
  refine ⟨(burnLockLoop_refused E hkeys (xs ++ a :: ys) [] 0 0 hbad).1.symm, ?_⟩
  intro hxs
  exact burnLockLoop_invalid E hkeys xs ys a [] 0 0 hk hp hv hxs

/-- C5 amended, evaluated: a `ProphecyID` attribute before and after the
attribute that names the unrecognized network 5. -/
theorem BurnLockEventToCosmosMsg_unrecognized_witness :
    BurnLockEventToCosmosMsg exParserEnv
        ([⟨lit "prophecy_id", lit "abc123"⟩] ++
          ⟨lit "network_id", lit "5"⟩ :: [⟨lit "prophecy_id", lit "abc123"⟩]) =
      ({}, some "network id is invalid") :=
  (BurnLockEventToCosmosMsg_unrecognized exParserEnv [⟨lit "prophecy_id", lit "abc123"⟩]
    [⟨lit "prophecy_id", lit "abc123"⟩] ⟨lit "network_id", lit "5"⟩ 5
    (by decide) (by decide) (by decide) (by decide)).2 (by decide)

/-- C6: `getOracleClaimType` is a function of the event-type string alone into
the four kinds, and it returns `Unsupported` exactly when the string is none
of the names of `MsgBurn`, `MsgLock` and `ProphecyCompleted`. -/
theorem getOracleClaimType_total (str : Event → GoString) (eventType : GoString) :
    (getOracleClaimType str eventType = Event.MsgBurn ∨
      getOracleClaimType str eventType = Event.MsgLock ∨
      getOracleClaimType str eventType = Event.ProphecyCompleted ∨
      getOracleClaimType str eventType = Event.Unsupported) ∧
    (getOracleClaimType str eventType = Event.Unsupported ↔
      eventType ≠ str Event.MsgBurn ∧ eventType ≠ str Event.MsgLock ∧
        eventType ≠ str Event.ProphecyCompleted) := by
  unfold getOracleClaimType
  by_cases h1 : eventType = str Event.MsgBurn
  · rw [if_pos h1]
    exact ⟨Or.inl rfl, by simp [h1]⟩
  · rw [if_neg h1]
    by_cases h2 : eventType = str Event.MsgLock
    · rw [if_pos h2]
      exact ⟨Or.inr (Or.inl rfl), by simp [h2]⟩
    · rw [if_neg h2]
      by_cases h3 : eventType = str Event.ProphecyCompleted
      · rw [if_pos h3]
        exact ⟨Or.inr (Or.inr (Or.inl rfl)), by simp [h3]⟩
      · rw [if_neg h3]
        exact ⟨Or.inr (Or.inr (Or.inr rfl)), by simp [h1, h2, h3]⟩

/-- C7: for an accepted event, the claim has the kind of the event; when the
kind is Burn its Symbol is the translation of the lower-cased event symbol,
and otherwise (Lock) it is the lower-cased event symbol itself.  Hence, where
the translation changes the symbol, the Symbol is the translated one if and
only if the kind is Burn. -/
theorem EthereumEventToEthBridgeClaim_symbol (X : EthEnv) (valAddr : Bytes)
    (event : EthereumEvent) (EthereumToSifchain : GoString → GoString) (claim : EthBridgeClaim)
    (h : EthereumEventToEthBridgeClaim X valAddr event EthereumToSifchain = some (claim, none)) :
    claim.ClaimType = event.ClaimType ∧
    (claim.ClaimType = ClaimType.CLAIM_TYPE_BURN →
      claim.Symbol = EthereumToSifchain (X.ToLower event.Symbol)) ∧
    (claim.ClaimType ≠ ClaimType.CLAIM_TYPE_BURN → claim.Symbol = X.ToLower event.Symbol) ∧
    (EthereumToSifchain (X.ToLower event.Symbol) ≠ X.ToLower event.Symbol →
      (claim.Symbol = EthereumToSifchain (X.ToLower event.Symbol) ↔
        claim.ClaimType = ClaimType.CLAIM_TYPE_BURN)) := by
  have key : claim.ClaimType = event.ClaimType ∧
      claim.Symbol = (if event.ClaimType = ClaimType.CLAIM_TYPE_BURN then
        EthereumToSifchain (X.ToLower event.Symbol) else X.ToLower event.Symbol) := by
    rw [EthereumEventToEthBridgeClaim_accepted X valAddr event EthereumToSifchain claim h]
    exact ⟨rfl, rfl⟩
  obtain ⟨hkind, hsym⟩ := key
  rw [hkind]
  refine ⟨rfl, ?_, ?_, ?_⟩
  · intro hb; rw [hsym, if_pos hb]
  · intro hb; rw [hsym, if_neg hb]
  · intro hne
    by_cases hb : event.ClaimType = ClaimType.CLAIM_TYPE_BURN
    · rw [hsym, if_pos hb]; simp [hb]
    · rw [hsym, if_neg hb]; simp [hb, Ne.symm hne]

/-- C7, evaluated at the Burn event `exEthEvent`: the symbol `ETH` is
lower-cased and translated to `ceth`. -/
theorem EthereumEventToEthBridgeClaim_symbol_witness :
    exBurnClaim.ClaimType = (exEthEvent ClaimType.CLAIM_TYPE_BURN).ClaimType ∧
    (exBurnClaim.ClaimType = ClaimType.CLAIM_TYPE_BURN →
      exBurnClaim.Symbol =
        exTranslate (exEthEnv.ToLower (exEthEvent ClaimType.CLAIM_TYPE_BURN).Symbol)) ∧
    (exBurnClaim.ClaimType ≠ ClaimType.CLAIM_TYPE_BURN →
      exBurnClaim.Symbol = exEthEnv.ToLower (exEthEvent ClaimType.CLAIM_TYPE_BURN).Symbol) ∧
    (exTranslate (exEthEnv.ToLower (exEthEvent ClaimType.CLAIM_TYPE_BURN).Symbol) ≠
        exEthEnv.ToLower (exEthEvent ClaimType.CLAIM_TYPE_BURN).Symbol →
      (exBurnClaim.Symbol =
          exTranslate (exEthEnv.ToLower (exEthEvent ClaimType.CLAIM_TYPE_BURN).Symbol) ↔
        exBurnClaim.ClaimType = ClaimType.CLAIM_TYPE_BURN)) :=
  EthereumEventToEthBridgeClaim_symbol exEthEnv (lit "sifvaloper1")
    (exEthEvent ClaimType.CLAIM_TYPE_BURN) exTranslate exBurnClaim (by decide)

/-- C8: when the receiver of the event does not decode, or decodes to the
empty address, `EthereumEventToEthBridgeClaim` returns the empty claim and an
error, whatever the other fields are: the error of the decoder in the first
case, `empty recipient address` in the second. -/
theorem EthereumEventToEthBridgeClaim_invalid_recipient (X : EthEnv) (valAddr : Bytes)
    (event : EthereumEvent) (EthereumToSifchain : GoString → GoString)
    (h : (X.AccAddressFromBech32 event.To).2 ≠ none ∨ (X.AccAddressFromBech32 event.To).1 = []) :
    EthereumEventToEthBridgeClaim X valAddr event EthereumToSifchain =
      some ({}, some ((X.AccAddressFromBech32 event.To).2.getD "empty recipient address")) := by
  unfold EthereumEventToEthBridgeClaim
  rcases hto : X.AccAddressFromBech32 event.To with ⟨r, e⟩
  rw [hto] at h
  cases e with
  | some e => simp
  | none =>
    rcases h with h | h
    · exact absurd rfl h
    · simp only [] at h
      subst h
      simp

/-- C8, evaluated at an event whose receiver is empty, which the decoder of
`exEthEnv` refuses. -/
theorem EthereumEventToEthBridgeClaim_invalid_recipient_witness :
    EthereumEventToEthBridgeClaim exEthEnv (lit "sifvaloper1")
        { exEthEvent ClaimType.CLAIM_TYPE_LOCK with To := [] } exTranslate =
      some ({}, some ((exEthEnv.AccAddressFromBech32
        ({ exEthEvent ClaimType.CLAIM_TYPE_LOCK with To := [] } : EthereumEvent).To).2.getD
          "empty recipient address")) :=
  EthereumEventToEthBridgeClaim_invalid_recipient exEthEnv (lit "sifvaloper1")
    { exEthEvent ClaimType.CLAIM_TYPE_LOCK with To := [] } exTranslate (Or.inl (by decide))

/-- C9: for a scanned event classified Lock or Burn whose attributes build to
a message `m` of the subscriber's network, and for which `txs.SignClaim`
succeeds with the signature `sig` on `PrefixMsg(m.ProphecyID)` under the
subscriber's key, the event leads to exactly one submission, also inside the
events scanned before and after it.  The message submitted carries the
validator address returned by the keyring, `m.NetworkDescriptor`,
`m.ProphecyID`, the address of the subscriber's public key, and `sig`, which
is not empty as long as `txs.SignClaim` returns no empty signature. -/
theorem processEvent_submits_once {F : Type} (R : RelayEnv F) (sub : CosmosSub) (txFactory : F)
    (event : AbciEvent) (m : CosmosMsg) (sig : Bytes)
    (hkind : getOracleClaimType R.EventString event.Typ = Event.MsgBurn ∨
      getOracleClaimType R.EventString event.Typ = Event.MsgLock)
    (hbuild : BurnLockEventToCosmosMsg R.toParserEnv event.Attributes = (m, none))
    (hnet : m.NetworkDescriptor = sub.NetworkDescriptor)
    (hsign : R.SignClaim (R.PrefixMsg m.ProphecyID) sub.PrivateKey = (sig, none))
    (hsig : ∀ d k s, R.SignClaim d k = (s, none) → s ≠ []) :
    submissions (processEvent R sub txFactory event) =
        [{ CosmosSender :=
             R.ValAddressString (R.GetValAddressFromKeyring txFactory sub.ValidatorName).1
           NetworkDescriptor := m.NetworkDescriptor
           ProphecyID := m.ProphecyID
           EthereumAddress := R.AddressString (R.PubkeyToAddress sub.PrivateKey.PublicKey)
           Signature := sig }] ∧
      sig ≠ [] ∧
      Action.signed (R.PrefixMsg m.ProphecyID) true ∈ processEvent R sub txFactory event ∧
      ∀ before after : List AbciEvent,
        submissions (processEvents R sub txFactory (before ++ event :: after)) =
          submissions (processEvents R sub txFactory before) ++
            { CosmosSender :=
                R.ValAddressString (R.GetValAddressFromKeyring txFactory sub.ValidatorName).1
              NetworkDescriptor := m.NetworkDescriptor
              ProphecyID := m.ProphecyID
              EthereumAddress := R.AddressString (R.PubkeyToAddress sub.PrivateKey.PublicKey)
              Signature := sig } ::
            submissions (processEvents R sub txFactory after) := by
  have hev : processEvent R sub txFactory event =
      Action.classified event.Typ (getOracleClaimType R.EventString event.Typ) ::
        witnessSignProphecyID R sub txFactory m := by
    unfold processEvent
    simp only [hkind, if_true, hbuild, hnet]
  have hw : submissions (witnessSignProphecyID R sub txFactory m) =
      [{ CosmosSender :=
           R.ValAddressString (R.GetValAddressFromKeyring txFactory sub.ValidatorName).1
         NetworkDescriptor := m.NetworkDescriptor
         ProphecyID := m.ProphecyID
         EthereumAddress := R.AddressString (R.PubkeyToAddress sub.PrivateKey.PublicKey)
         Signature := sig }] := by
    unfold witnessSignProphecyID
    simp only [hsign, submissions_append]
    cases (R.GetValAddressFromKeyring txFactory sub.ValidatorName).2 <;>
      simp [submissions, NewMsgSignProphecy]
  have h1 : submissions (processEvent R sub txFactory event) =
      submissions (witnessSignProphecyID R sub txFactory m) := by
    rw [hev]
    rfl
  rw [hw] at h1
  refine ⟨h1, hsig _ _ _ hsign, ?_, ?_⟩
  · rw [hev]
    unfold witnessSignProphecyID
    simp [hsign]
  · intro before after
    rw [processEvents_append, submissions_append]
    simp only [processEvents, submissions_append, h1]
    rfl

/-- C9, evaluated at the Lock event `{prophecy_id: "abc123", network_id: "1"}`
scanned by the subscriber of network 1. -/
theorem processEvent_submits_once_witness :
    submissions (processEvent exRelayEnv exSub (lit "sifvaloper1", none) exLockEvent) =
        [{ CosmosSender := exRelayEnv.ValAddressString
             (exRelayEnv.GetValAddressFromKeyring (lit "sifvaloper1", none)
               exSub.ValidatorName).1
           NetworkDescriptor := ({ NetworkDescriptor := 1, ProphecyID := lit "abc123" } :
             CosmosMsg).NetworkDescriptor
           ProphecyID := ({ NetworkDescriptor := 1, ProphecyID := lit "abc123" } :
             CosmosMsg).ProphecyID
           EthereumAddress := exRelayEnv.AddressString
             (exRelayEnv.PubkeyToAddress exSub.PrivateKey.PublicKey)
           Signature := lit "prefixabc123" ++ [1] }] ∧
      lit "prefixabc123" ++ [1] ≠ [] :=
  have h := processEvent_submits_once exRelayEnv exSub (lit "sifvaloper1", none) exLockEvent
    { NetworkDescriptor := 1, ProphecyID := lit "abc123" } (lit "prefixabc123" ++ [1])
    (Or.inr (by decide)) (by decide) (by decide) (by decide)
    (by
      intro d k s hs
      change (if k.D = 0 then (([] : Bytes), some "invalid key") else (d ++ [1], none)) =
        (s, none) at hs
      split at hs
      · simp at hs
      · simp only [Prod.mk.injEq, and_true] at hs
        rw [← hs]
        simp)
  ⟨h.1, h.2.1⟩

/-- C10, at a failing input: when `txs.SignClaim` fails (the key of
`exSubBadKey` cannot sign), `witnessSignProphecyID` writes the failure to the
log and still builds and submits a sign-prophecy message, with an empty
signature. -/
theorem witnessSignProphecyID_submits_after_signing_error :
    exRelayEnv.SignClaim (exRelayEnv.PrefixMsg (lit "abc123")) exSubBadKey.PrivateKey =
        ([], some "invalid key") ∧
      witnessSignProphecyID exRelayEnv exSubBadKey (lit "sifvaloper1", none)
          { NetworkDescriptor := 1, ProphecyID := lit "abc123" } =
        [Action.signed (lit "prefixabc123") false,
         Action.logged "failed to sign the prophecy id",
         Action.submitted
           { CosmosSender := lit "sifvaloper1", NetworkDescriptor := 1,
             ProphecyID := lit "abc123", EthereumAddress := List.replicate 20 0,
             Signature := [] }] := by
  decide

/-- C11, at a failing input: on a tick where the nonce queries succeed (the
validator has witnessed nonce 41 and nonce 42 is at height 142),
`CheckNonceAndProcess` does nothing at all: no fetch, no classification, no
signature and no submission, whereas the scan of the heights 142 and 143
that it does not call fetches both and submits one message for each. -/
theorem CheckNonceAndProcess_runs_no_scan :
    GetWitnessLockBurnNonceFromCosmos exQueryEnv exSubConnected 1 (lit "sifvaloper1") =
        (41, none) ∧
      GetGlobalNonceBlockNumberFromCosmos exQueryEnv exSubConnected 1 (lit "sifvaloper1") =
        (41, 142, none) ∧
      CheckNonceAndProcess exQueryEnv exSubConnected (lit "sifvaloper1", (none : GoError))
        exClientOk 1 (lit "sifvaloper1") = [] ∧
      (ProcessLockBurnWithScope exRelayEnv exSubConnected (lit "sifvaloper1", none)
        exClientOk 5 142 143).map (fun t => (fetchedHeights t, (submissions t).length)) =
        some ([142, 143], 2) := by
  decide

/-- C12: in the scan, an event is signed or submitted only if it is
classified Lock or Burn, its message builds without error and the message is
of the subscriber's network.  An event classified ProphecyCompleted or
Unsupported leaves its classification as its only action (no log line, no
signature, no submission), and the events before and after it are processed
as they are without it. -/
theorem processEvent_gate {F : Type} (R : RelayEnv F) (sub : CosmosSub) (txFactory : F)
    (event : AbciEvent) :
    (((∃ d ok, Action.signed d ok ∈ processEvent R sub txFactory event) ∨
        (∃ msg, Action.submitted msg ∈ processEvent R sub txFactory event)) →
      (getOracleClaimType R.EventString event.Typ = Event.MsgBurn ∨
        getOracleClaimType R.EventString event.Typ = Event.MsgLock) ∧
      (BurnLockEventToCosmosMsg R.toParserEnv event.Attributes).2 = none ∧
      (BurnLockEventToCosmosMsg R.toParserEnv event.Attributes).1.NetworkDescriptor =
        sub.NetworkDescriptor) ∧
    ((getOracleClaimType R.EventString event.Typ = Event.ProphecyCompleted ∨
        getOracleClaimType R.EventString event.Typ = Event.Unsupported) →
      processEvent R sub txFactory event =
        [Action.classified event.Typ (getOracleClaimType R.EventString event.Typ)] ∧
      ∀ before after : List AbciEvent,
        processEvents R sub txFactory (before ++ event :: after) =
          processEvents R sub txFactory before ++
            Action.classified event.Typ (getOracleClaimType R.EventString event.Typ) ::
              processEvents R sub txFactory after ∧
        processEvents R sub txFactory (before ++ after) =
          processEvents R sub txFactory before ++ processEvents R sub txFactory after) := by
  constructor
  · intro h
    by_contra hcon
    rw [processEvent_eq, if_neg hcon] at h
    rcases h with ⟨d, ok, h⟩ | ⟨msg, h⟩
    · rw [List.mem_cons] at h
      rcases h with h | h
      · cases h
      · split at h
        · simp at h
        · simp at h
    · rw [List.mem_cons] at h
      rcases h with h | h
      · cases h
      · split at h
        · simp at h
        · simp at h
  · intro hk
    have hnot : ¬ (getOracleClaimType R.EventString event.Typ = Event.MsgBurn ∨
        getOracleClaimType R.EventString event.Typ = Event.MsgLock) := by
      rcases hk with hk | hk <;> rw [hk] <;> simp
    have hev : processEvent R sub txFactory event =
        [Action.classified event.Typ (getOracleClaimType R.EventString event.Typ)] := by
      rw [processEvent_eq, if_neg (fun h => hnot h.1), if_neg (fun h => hnot h.1)]
    refine ⟨hev, fun before after => ⟨?_, processEvents_append R sub txFactory before after⟩⟩
    rw [processEvents_append]
    simp [processEvents, hev]

/-- C12, evaluated at a `transfer` event, which is classified Unsupported. -/
theorem processEvent_gate_witness :
    processEvent exRelayEnv exSub (lit "sifvaloper1", (none : GoError)) exOtherEvent =
      [Action.classified exOtherEvent.Typ
        (getOracleClaimType exRelayEnv.EventString exOtherEvent.Typ)] :=
  ((processEvent_gate exRelayEnv exSub (lit "sifvaloper1", (none : GoError)) exOtherEvent).2
    (Or.inr (by decide))).1

/-- C13: when `BurnLockEventToCosmosMsg` fails for an event classified Lock
or Burn, the event leaves its classification and one log line, and nothing
else.  The iteration that holds it moves the loop variable as it does without
the event, and every run of the scan is the run with the event absent from
its block, with these two records put in at the place of the event: the
events, transactions and blocks after it are processed the same. -/
theorem scan_isolates_failed_event {F : Type} (R : RelayEnv F) (sub : CosmosSub)
    (txFactory : F) (c c' : Client) (toBlockNumber : Int) (s : ScanState)
    (txsBefore txsAfter : List ResponseDeliverTx) (before after : List AbciEvent)
    (event : AbciEvent) (k : Nat) (hle : s.blockNumber ≤ toBlockNumber)
    (hkind : getOracleClaimType R.EventString event.Typ = Event.MsgBurn ∨
      getOracleClaimType R.EventString event.Typ = Event.MsgLock)
    (hfail : (BurnLockEventToCosmosMsg R.toParserEnv event.Attributes).2 ≠ none)
    (hc : c s.calls s.blockNumber =
      some { TxsResults := txsBefore ++ { Events := before ++ event :: after } :: txsAfter })
    (hc' : c' s.calls s.blockNumber =
      some { TxsResults := txsBefore ++ { Events := before ++ after } :: txsAfter })
    (hagree : ∀ n, s.calls < n → ∀ h, c n h = c' n h) :
    processEvent R sub txFactory event =
        [Action.classified event.Typ (getOracleClaimType R.EventString event.Typ),
         Action.logged "sifchain client failed in get burn lock message from event."] ∧
      (∃ s₁ s₁', scanStep R sub txFactory c toBlockNumber s = some s₁ ∧
        scanStep R sub txFactory c' toBlockNumber s = some s₁' ∧
        s₁.blockNumber = s₁'.blockNumber ∧ s₁.blockNumber = wrapInt64 (s.blockNumber + 1)) ∧
      scanIter R sub txFactory c toBlockNumber (k + 1) s =
        (scanIter R sub txFactory c' toBlockNumber (k + 1) s).map (fun r =>
          { blockNumber := r.blockNumber, calls := r.calls,
            trace :=
              r.trace.take (s.trace ++ Action.fetched s.blockNumber true ::
                (processTxs R sub txFactory txsBefore ++
                  processEvents R sub txFactory before)).length ++
              [Action.classified event.Typ (getOracleClaimType R.EventString event.Typ),
               Action.logged "sifchain client failed in get burn lock message from event."] ++
              r.trace.drop (s.trace ++ Action.fetched s.blockNumber true ::
                (processTxs R sub txFactory txsBefore ++
                  processEvents R sub txFactory before)).length }) := by
  have hev : processEvent R sub txFactory event =
      [Action.classified event.Typ (getOracleClaimType R.EventString event.Typ),
       Action.logged "sifchain client failed in get burn lock message from event."] := by
    rw [processEvent_eq, if_neg (fun h => hfail h.2.1), if_pos ⟨hkind, hfail⟩]
  have hB : processTxs R sub txFactory
      (txsBefore ++ { Events := before ++ event :: after } :: txsAfter) =
      (processTxs R sub txFactory txsBefore ++ processEvents R sub txFactory before) ++
        ([Action.classified event.Typ (getOracleClaimType R.EventString event.Typ),
          Action.logged "sifchain client failed in get burn lock message from event."] ++
         (processEvents R sub txFactory after ++ processTxs R sub txFactory txsAfter)) := by
    rw [processTxs_append]
    simp only [processTxs, processEvents_append, processEvents, hev, List.append_assoc]
  have hB' : processTxs R sub txFactory
      (txsBefore ++ { Events := before ++ after } :: txsAfter) =
      (processTxs R sub txFactory txsBefore ++ processEvents R sub txFactory before) ++
         (processEvents R sub txFactory after ++ processTxs R sub txFactory txsAfter) := by
    rw [processTxs_append]
    simp only [processTxs, processEvents_append, List.append_assoc]
  have hs : scanStep R sub txFactory c toBlockNumber s =
      some { blockNumber := wrapInt64 (s.blockNumber + 1), calls := s.calls + 1,
             trace := (s.trace ++ Action.fetched s.blockNumber true ::
                 (processTxs R sub txFactory txsBefore ++
                   processEvents R sub txFactory before)) ++
               ([Action.classified event.Typ (getOracleClaimType R.EventString event.Typ),
                 Action.logged
                   "sifchain client failed in get burn lock message from event."] ++
                (processEvents R sub txFactory after ++
                  processTxs R sub txFactory txsAfter)) } := by
    simp only [scanStep, hle, if_true, hc, hB, List.append_assoc, List.cons_append]
  have hs' : scanStep R sub txFactory c' toBlockNumber s =
      some { blockNumber := wrapInt64 (s.blockNumber + 1), calls := s.calls + 1,
             trace := (s.trace ++ Action.fetched s.blockNumber true ::
                 (processTxs R sub txFactory txsBefore ++
                   processEvents R sub txFactory before)) ++
                (processEvents R sub txFactory after ++
                  processTxs R sub txFactory txsAfter) } := by
    simp only [scanStep, hle, if_true, hc', hB', List.append_assoc, List.cons_append]
  refine ⟨hev, ⟨_, _, hs, hs', rfl, rfl⟩, ?_⟩
  rw [scanIter, hs, scanIter, hs']
  simp only []
  have hcc : scanIter R sub txFactory c toBlockNumber k
      { blockNumber := wrapInt64 (s.blockNumber + 1), calls := s.calls + 1, trace := [] } =
      scanIter R sub txFactory c' toBlockNumber k
      { blockNumber := wrapInt64 (s.blockNumber + 1), calls := s.calls + 1, trace := [] } :=
    scanIter_client_congr R sub txFactory c c' toBlockNumber k _
      (fun n hn h => hagree n (by simp only at hn; omega) h)
  have e1 := scanIter_prepend R sub txFactory c toBlockNumber k
    (wrapInt64 (s.blockNumber + 1)) (s.calls + 1)
    ((s.trace ++ Action.fetched s.blockNumber true ::
        (processTxs R sub txFactory txsBefore ++ processEvents R sub txFactory before)) ++
      ([Action.classified event.Typ (getOracleClaimType R.EventString event.Typ),
        Action.logged "sifchain client failed in get burn lock message from event."] ++
       (processEvents R sub txFactory after ++ processTxs R sub txFactory txsAfter))) []
  have e2 := scanIter_prepend R sub txFactory c' toBlockNumber k
    (wrapInt64 (s.blockNumber + 1)) (s.calls + 1)
    ((s.trace ++ Action.fetched s.blockNumber true ::
        (processTxs R sub txFactory txsBefore ++ processEvents R sub txFactory before)) ++
       (processEvents R sub txFactory after ++ processTxs R sub txFactory txsAfter)) []
  rw [List.append_nil] at e1 e2
  rw [e1, e2, hcc, Option.map_map]
  congr 1
  funext r
  simp only [Function.comp]
  rw [take_append_drop_insert]

/-- C13, evaluated: the Lock event `exBadLockEvent`, which lacks the network,
between two good events of the block at height 142. -/
theorem scan_isolates_failed_event_witness :
    processEvent exRelayEnv exSub (lit "sifvaloper1", (none : GoError)) exBadLockEvent =
        [Action.classified exBadLockEvent.Typ
           (getOracleClaimType exRelayEnv.EventString exBadLockEvent.Typ),
         Action.logged "sifchain client failed in get burn lock message from event."] ∧
      ∃ s₁ s₁', scanStep exRelayEnv exSub (lit "sifvaloper1", (none : GoError))
          exClientWithBad 143 { blockNumber := 142, calls := 0, trace := [] } = some s₁ ∧
        scanStep exRelayEnv exSub (lit "sifvaloper1", (none : GoError)) exClientWithoutBad 143
          { blockNumber := 142, calls := 0, trace := [] } = some s₁' ∧
        s₁.blockNumber = s₁'.blockNumber ∧
        s₁.blockNumber = wrapInt64 (({ blockNumber := 142, calls := 0, trace := [] } :
          ScanState).blockNumber + 1) :=
  have h := scan_isolates_failed_event exRelayEnv exSub (lit "sifvaloper1", (none : GoError))
    exClientWithBad exClientWithoutBad 143 { blockNumber := 142, calls := 0, trace := [] }
    [] [] [exLockEvent] [exLockEvent] exBadLockEvent 1 (by decide) (Or.inr (by decide))
    (by decide) rfl rfl
    (by
      intro n hn h
      have hn0 : n ≠ 0 := by
        intro h0
        rw [h0] at hn
        exact Nat.lt_irrefl 0 hn
      simp [exClientWithBad, exClientWithoutBad, hn0])
  ⟨h.1, h.2.1⟩

/-- C14, as stated, fails at the last height of an `int64`: with
`toBlockNumber = 2 ^ 63 - 1` the increment of the loop variable wraps to
`- 2 ^ 63`, which is not above `toBlockNumber`, so after the fetch of the
height `2 ^ 63 - 1` the scan fetches the height `- 2 ^ 63`, outside the range,
and ten iterations do not end a scan of one height. -/
theorem ProcessLockBurnWithScope_range_counterexample :
    scanIter exRelayEnv exSub (lit "sifvaloper1", none) exClientEmpty 9223372036854775807 2
        { blockNumber := 9223372036854775807, calls := 0, trace := [] } =
      some { blockNumber := -9223372036854775807, calls := 2,
             trace := [Action.fetched 9223372036854775807 true,
                       Action.fetched (-9223372036854775808) true] } ∧
    ProcessLockBurnWithScope exRelayEnv exSub (lit "sifvaloper1", none) exClientEmpty 10
        9223372036854775807 9223372036854775807 = none := by
  decide

/-- C14, amended: when every fetch succeeds and `toBlockNumber` is below the
last `int64`, the scan ends (any fuel above the number of heights suffices)
and its actions are those of `scanTrace`: the fetches are those of the
heights `fromBlockNumber, fromBlockNumber + 1, ...` up to `toBlockNumber`,
each once and in this order, and the events classified are those of the
blocks fetched, block after block in their stored order.  When
`fromBlockNumber > toBlockNumber` nothing is done. -/
theorem ProcessLockBurnWithScope_fetches_range {F : Type} (R : RelayEnv F) (sub : CosmosSub)
    (txFactory : F) (client : Client) (blocks : Nat → Int → ResultBlockResults)
    (fromBlockNumber toBlockNumber : Int) (fuel : Nat)
    (hfetch : ∀ n h, client n h = some (blocks n h))
    (hfrom : -2 ^ 63 ≤ fromBlockNumber) (hto : toBlockNumber < 2 ^ 63 - 1)
    (hfuel : (toBlockNumber - fromBlockNumber + 1).toNat < fuel) :
    ProcessLockBurnWithScope R sub txFactory client fuel fromBlockNumber toBlockNumber =
        some (scanTrace R sub txFactory blocks fromBlockNumber 0
          (toBlockNumber - fromBlockNumber + 1).toNat) ∧
      fetchedHeights (scanTrace R sub txFactory blocks fromBlockNumber 0
          (toBlockNumber - fromBlockNumber + 1).toNat) =
        heightsFrom fromBlockNumber (toBlockNumber - fromBlockNumber + 1).toNat ∧
      (∀ h, h ∈ heightsFrom fromBlockNumber (toBlockNumber - fromBlockNumber + 1).toNat ↔
        fromBlockNumber ≤ h ∧ h ≤ toBlockNumber) ∧
      classifications (scanTrace R sub txFactory blocks fromBlockNumber 0
          (toBlockNumber - fromBlockNumber + 1).toNat) =
        (scanEvents blocks fromBlockNumber 0
          (toBlockNumber - fromBlockNumber + 1).toNat).map
            (fun e => (e.Typ, getOracleClaimType R.EventString e.Typ)) ∧
      (toBlockNumber < fromBlockNumber →
        ProcessLockBurnWithScope R sub txFactory client fuel fromBlockNumber toBlockNumber =
          some []) := by
  have hrun : ProcessLockBurnWithScope R sub txFactory client fuel fromBlockNumber
      toBlockNumber = some (scanTrace R sub txFactory blocks fromBlockNumber 0
        (toBlockNumber - fromBlockNumber + 1).toNat) := by
    unfold ProcessLockBurnWithScope
    rw [scanLoop_all_fetched R sub txFactory client blocks hfetch toBlockNumber hto _
      fromBlockNumber 0 [] fuel hfrom rfl hfuel]
    simp
  have hreads := scanTrace_reads R sub txFactory blocks fromBlockNumber 0
    (toBlockNumber - fromBlockNumber + 1).toNat
  refine ⟨hrun, hreads.1, ?_, hreads.2, ?_⟩
  · intro h
    rw [mem_heightsFrom]
    omega
  · intro hlt
    have h0 : (toBlockNumber - fromBlockNumber + 1).toNat = 0 := by omega
    rw [hrun, h0]
    rfl

/-- C14 amended, evaluated: the scan of the heights 142 and 143 with a
client that returns a block with one Lock event at every call. -/
theorem ProcessLockBurnWithScope_fetches_range_witness :
    (ProcessLockBurnWithScope exRelayEnv exSub (lit "sifvaloper1", none) exClientOk 5 142
        143).map fetchedHeights = some [142, 143] ∧
    (ProcessLockBurnWithScope exRelayEnv exSub (lit "sifvaloper1", none) exClientOk 5 142
        143).map classifications =
      some [(lit "lock", Event.MsgLock), (lit "lock", Event.MsgLock)] :=
  have h := ProcessLockBurnWithScope_fetches_range exRelayEnv exSub (lit "sifvaloper1", none)
    exClientOk (fun _ _ => { TxsResults := [{ Events := [exLockEvent] }] }) 142 143 5
    (fun _ _ => rfl) (by norm_num) (by norm_num) (by decide)
  ⟨by rw [h.1]; decide, by rw [h.1]; decide⟩

/-- C16: the Amount of the claim of an accepted event is the Value of the
event, whatever its size; and an event with a valid receiver that passes the
spoofing guard is accepted, with that Amount, for every Value that an
`sdk.Int` holds (`|Value| < 2 ^ maxBitLen`). -/
theorem EthereumEventToEthBridgeClaim_amount (X : EthEnv) (valAddr : Bytes)
    (event : EthereumEvent) (EthereumToSifchain : GoString → GoString) :
    (∀ claim, EthereumEventToEthBridgeClaim X valAddr event EthereumToSifchain =
        some (claim, none) → claim.Amount = some event.Value) ∧
    (∀ recipient, X.AccAddressFromBech32 event.To = (recipient, none) → recipient ≠ [] →
      ¬ (event.ClaimType = ClaimType.CLAIM_TYPE_LOCK ∧ X.ToLower event.Symbol = lit "eth" ∧
        isZeroAddress event.Token = false) →
      event.Value.natAbs < 2 ^ X.maxBitLen →
      ∃ claim, EthereumEventToEthBridgeClaim X valAddr event EthereumToSifchain =
        some (claim, none) ∧ claim.Amount = some event.Value) := by
  constructor
  · intro claim h
    rw [EthereumEventToEthBridgeClaim_accepted X valAddr event EthereumToSifchain claim h]
  · intro recipient hto hne hguard hfit
    exact ⟨_, EthereumEventToEthBridgeClaim_accepts X valAddr event EthereumToSifchain
      recipient hto hne hguard hfit, rfl⟩

/-- C16, evaluated at a Burn event that transfers `2 ^ 200 + 1`. -/
theorem EthereumEventToEthBridgeClaim_amount_witness :
    ({ exBurnClaim with Amount := some (1606938044258990275541962092341162602522202993782792835301377) } : EthBridgeClaim).Amount =
      some ({ exEthEvent ClaimType.CLAIM_TYPE_BURN with Value := 1606938044258990275541962092341162602522202993782792835301377 } :
        EthereumEvent).Value :=
  (EthereumEventToEthBridgeClaim_amount exEthEnv (lit "sifvaloper1")
    { exEthEvent ClaimType.CLAIM_TYPE_BURN with Value := 1606938044258990275541962092341162602522202993782792835301377 } exTranslate).1
    { exBurnClaim with Amount := some (1606938044258990275541962092341162602522202993782792835301377) } (by decide)

/-- C17, as stated, fails: the two Burn events below differ in their symbol
only (`eth` and `ceth`), both are accepted, and the two claims carry the same
network descriptor, token contract address, decimals, name and symbol
(`ceth`), yet their DenomHash differs. -/
theorem EthereumEventToEthBridgeClaim_denomHash_counterexample :
    ∃ c₁ c₂ : EthBridgeClaim,
      EthereumEventToEthBridgeClaim exEthEnv (lit "sifvaloper1")
        { exEthEvent ClaimType.CLAIM_TYPE_BURN with Symbol := lit "eth" } exTranslate =
          some (c₁, none) ∧
      EthereumEventToEthBridgeClaim exEthEnv (lit "sifvaloper1")
        { exEthEvent ClaimType.CLAIM_TYPE_BURN with Symbol := lit "ceth" } exTranslate =
          some (c₂, none) ∧
      c₁.NetworkDescriptor = c₂.NetworkDescriptor ∧
      c₁.TokenContractAddress = c₂.TokenContractAddress ∧
      c₁.Decimals = c₂.Decimals ∧ c₁.TokenName = c₂.TokenName ∧ c₁.Symbol = c₂.Symbol ∧
      c₁.DenomHash ≠ c₂.DenomHash :=
  ⟨{ exBurnClaim with DenomHash := lit "Ethereth" },
   { exBurnClaim with DenomHash := lit "Etherceth" },
   by decide, by decide, by decide, by decide, by decide, by decide, by decide, by decide⟩

/-- C17, amended: the DenomHash is a function of the network descriptor, the
token address, the decimals, the name and the symbol of the event (the symbol
as the event holds it): two accepted events that agree on these five have
claims of equal DenomHash, whatever their validator, sender, receiver, value,
nonce, claim kind and symbol translation are. -/
theorem EthereumEventToEthBridgeClaim_denomHash_deterministic (X : EthEnv)
    (valAddr₁ valAddr₂ : Bytes) (event₁ event₂ : EthereumEvent)
    (translate₁ translate₂ : GoString → GoString) (claim₁ claim₂ : EthBridgeClaim)
    (h₁ : EthereumEventToEthBridgeClaim X valAddr₁ event₁ translate₁ = some (claim₁, none))
    (h₂ : EthereumEventToEthBridgeClaim X valAddr₂ event₂ translate₂ = some (claim₂, none))
    (hnet : event₁.NetworkDescriptor = event₂.NetworkDescriptor)
    (htoken : event₁.Token = event₂.Token) (hdec : event₁.Decimals = event₂.Decimals)
    (hname : event₁.Name = event₂.Name) (hsym : event₁.Symbol = event₂.Symbol) :
    claim₁.DenomHash = claim₂.DenomHash := by
  rw [EthereumEventToEthBridgeClaim_accepted X valAddr₁ event₁ translate₁ claim₁ h₁,
    EthereumEventToEthBridgeClaim_accepted X valAddr₂ event₂ translate₂ claim₂ h₂]
  simp only [hnet, htoken, hdec, hname, hsym]

/-- C17 amended, evaluated at a Burn event and a Lock event of the same token
`ceth`, with different values and nonces. -/
theorem EthereumEventToEthBridgeClaim_denomHash_deterministic_witness :
    ({ exBurnClaim with DenomHash := lit "Etherceth" } : EthBridgeClaim).DenomHash =
      ({ exBurnClaim with
          DenomHash := lit "Etherceth", ClaimType := ClaimType.CLAIM_TYPE_LOCK,
          Amount := some 77, Nonce := 4 } : EthBridgeClaim).DenomHash :=
  EthereumEventToEthBridgeClaim_denomHash_deterministic exEthEnv (lit "sifvaloper1")
    (lit "sifvaloper1")
    { exEthEvent ClaimType.CLAIM_TYPE_BURN with Symbol := lit "ceth" }
    { exEthEvent ClaimType.CLAIM_TYPE_LOCK with Symbol := lit "ceth", Value := 77, Nonce := 4 }
    exTranslate exTranslate _ _ (by decide) (by decide) rfl rfl rfl rfl rfl

/-- C18: an attribute list that holds, under the `NetworkDescriptor` key, a
value that does not write an unsigned integer of 32 bits in base 10 (the
value is empty, or holds a byte that is not a decimal digit, such as a sign
or a letter, or writes a number of `2 ^ 32` or more) is refused by
`BurnLockEventToCosmosMsg` with the empty message and one of the two network
errors; the error is `network id can't parse` when no `NetworkDescriptor`
attribute before it names an unrecognized network. -/
theorem BurnLockEventToCosmosMsg_unparsable (E : ParserEnv) (xs ys : List EventAttribute)
    (a : EventAttribute) (hkeys : E.ProphecyIDKey ≠ E.NetworkDescriptorKey)
    (hk : a.Key = E.NetworkDescriptorKey)
    (hbad : a.Value = [] ∨ (∃ c ∈ a.Value, ¬ (48 ≤ c.toNat ∧ c.toNat ≤ 57)) ∨
      2 ^ 32 ≤ decimalValue a.Value) :
    (ParseUint a.Value 32).2 ≠ none ∧
    (BurnLockEventToCosmosMsg E (xs ++ a :: ys) = ({}, some "network id can't parse") ∨
      BurnLockEventToCosmosMsg E (xs ++ a :: ys) = ({}, some "network id is invalid")) ∧
    ((∀ b ∈ xs, b.Key = E.NetworkDescriptorKey → networkValueGood E b) →
      BurnLockEventToCosmosMsg E (xs ++ a :: ys) = ({}, some "network id can't parse")) := by
  have hparse : (ParseUint a.Value 32).2 ≠ none := by
    rw [Ne, (ParseUint_eq_none_iff a.Value 32 (by norm_num)).1]
    intro hw
    rcases hbad with h | ⟨c, hc, hcd⟩ | h
    · exact hw.1 h
    · exact hcd (hw.2.1 c hc)
    · exact absurd hw.2.2 (by omega)
  have hex : ∃ b ∈ xs ++ a :: ys, b.Key = E.NetworkDescriptorKey ∧ ¬ networkValueGood E b :=
    ⟨a, by simp, hk, fun hg => hparse hg.1⟩
  refine ⟨hparse, (burnLockLoop_refused E hkeys (xs ++ a :: ys) [] 0 0 hex).1, ?_⟩
  intro hxs
  have h1 : a.Key ≠ E.ProphecyIDKey := fun h => hkeys (h.symm.trans hk)
  rw [BurnLockEventToCosmosMsg, burnLockLoop_append E hkeys xs (a :: ys) [] 0 0 hxs,
    burnLockLoop_cons_network E a ys _ _ _ h1 hk, if_pos hparse]

/-- C18, evaluated: the values `-1`, `0x1`, `4294967296` and the empty value
under the key `network_id`, each after a `prophecy_id` attribute. -/
theorem BurnLockEventToCosmosMsg_unparsable_witness :
    BurnLockEventToCosmosMsg exParserEnv
        ([⟨lit "prophecy_id", lit "abc123"⟩] ++ ⟨lit "network_id", lit "-1"⟩ :: []) =
      ({}, some "network id can't parse") ∧
    BurnLockEventToCosmosMsg exParserEnv
        ([⟨lit "prophecy_id", lit "abc123"⟩] ++ ⟨lit "network_id", lit "0x1"⟩ :: []) =
      ({}, some "network id can't parse") ∧
    BurnLockEventToCosmosMsg exParserEnv
        ([⟨lit "prophecy_id", lit "abc123"⟩] ++ ⟨lit "network_id", lit "4294967296"⟩ :: []) =
      ({}, some "network id can't parse") ∧
    BurnLockEventToCosmosMsg exParserEnv
        ([⟨lit "prophecy_id", lit "abc123"⟩] ++ ⟨lit "network_id", []⟩ :: []) =
      ({}, some "network id can't parse") :=
  ⟨(BurnLockEventToCosmosMsg_unparsable exParserEnv [⟨lit "prophecy_id", lit "abc123"⟩] []
      ⟨lit "network_id", lit "-1"⟩ (by decide) (by decide)
      (Or.inr (Or.inl ⟨45, by decide, by decide⟩))).2.2 (by decide),
   (BurnLockEventToCosmosMsg_unparsable exParserEnv [⟨lit "prophecy_id", lit "abc123"⟩] []
      ⟨lit "network_id", lit "0x1"⟩ (by decide) (by decide)
      (Or.inr (Or.inl ⟨120, by decide, by decide⟩))).2.2 (by decide),
   (BurnLockEventToCosmosMsg_unparsable exParserEnv [⟨lit "prophecy_id", lit "abc123"⟩] []
      ⟨lit "network_id", lit "4294967296"⟩ (by decide) (by decide)
      (Or.inr (Or.inr (by decide)))).2.2 (by decide),
   (BurnLockEventToCosmosMsg_unparsable exParserEnv [⟨lit "prophecy_id", lit "abc123"⟩] []
      ⟨lit "network_id", []⟩ (by decide) (by decide) (Or.inl rfl)).2.2 (by decide)⟩

/-- C19, as stated, fails: the Burn event with the nonce `2 ^ 63` is accepted
and the Nonce of its claim is `- 2 ^ 63`. -/
theorem EthereumEventToEthBridgeClaim_nonce_counterexample :
    EthereumEventToEthBridgeClaim exEthEnv (lit "sifvaloper1")
        { exEthEvent ClaimType.CLAIM_TYPE_BURN with Nonce := 9223372036854775808 }
        exTranslate =
      some ({ exBurnClaim with Nonce := -9223372036854775808 }, none) := by
  decide

/-- C19, amended: for an accepted event whose nonce is nonnegative, the
Nonce of the claim is the low 64 bits of the nonce read as a signed 64-bit
integer; it is the nonce of the event when the nonce is below `2 ^ 63`. -/
theorem EthereumEventToEthBridgeClaim_nonce (X : EthEnv) (valAddr : Bytes)
    (event : EthereumEvent) (EthereumToSifchain : GoString → GoString) (claim : EthBridgeClaim)
    (h : EthereumEventToEthBridgeClaim X valAddr event EthereumToSifchain = some (claim, none))
    (h0 : 0 ≤ event.Nonce) :
    claim.Nonce = wrapInt64 (event.Nonce % 2 ^ 64) ∧
      (event.Nonce < 2 ^ 63 → claim.Nonce = event.Nonce) := by
  rw [EthereumEventToEthBridgeClaim_accepted X valAddr event EthereumToSifchain claim h]
  show bigIntInt64 event.Nonce = wrapInt64 (event.Nonce % 2 ^ 64) ∧
    (event.Nonce < 2 ^ 63 → bigIntInt64 event.Nonce = event.Nonce)
  have hn : ¬ event.Nonce < 0 := by omega
  have hlow : bigIntInt64 event.Nonce = wrapInt64 (event.Nonce % 2 ^ 64) := by
    unfold bigIntInt64
    rw [if_neg hn]
    push_cast
    rw [abs_of_nonneg h0]
  refine ⟨hlow, ?_⟩
  intro h63
  rw [hlow]
  unfold wrapInt64
  norm_num at h63 ⊢
  omega

/-- C19 amended, evaluated at the Burn event `exEthEvent`, of nonce 3. -/
theorem EthereumEventToEthBridgeClaim_nonce_witness :
    exBurnClaim.Nonce = (exEthEvent ClaimType.CLAIM_TYPE_BURN).Nonce :=
  (EthereumEventToEthBridgeClaim_nonce exEthEnv (lit "sifvaloper1")
    (exEthEvent ClaimType.CLAIM_TYPE_BURN) exTranslate exBurnClaim (by decide)
    (by decide)).2 (by decide)

/-- C20: the DenomHash of the claim of an accepted event is `GetDenomHash` of
the network descriptor, the canonical string of the token address, the
decimals, the name and the symbol of the event, the symbol as the event
holds it; and the same event under another claim kind, another symbol
translation and another validator, when accepted, has the same DenomHash. -/
theorem EthereumEventToEthBridgeClaim_denomHash (X : EthEnv) (valAddr : Bytes)
    (event : EthereumEvent) (EthereumToSifchain : GoString → GoString) (claim : EthBridgeClaim)
    (h : EthereumEventToEthBridgeClaim X valAddr event EthereumToSifchain = some (claim, none)) :
    claim.DenomHash = X.GetDenomHash event.NetworkDescriptor
        (X.EthereumAddressString (X.Hex event.Token)) (event.Decimals.toNat : Int) event.Name
        event.Symbol ∧
    ∀ (kind : ClaimType) (translate : GoString → GoString) (valAddr' : Bytes)
      (claim' : EthBridgeClaim),
      EthereumEventToEthBridgeClaim X valAddr' { event with ClaimType := kind } translate =
        some (claim', none) → claim'.DenomHash = claim.DenomHash := by
  have hc := EthereumEventToEthBridgeClaim_accepted X valAddr event EthereumToSifchain claim h
  refine ⟨by rw [hc], ?_⟩
  intro kind translate valAddr' claim' h'
  rw [EthereumEventToEthBridgeClaim_accepted X valAddr' _ translate claim' h', hc]

/-- C20, evaluated at the Burn event `exEthEvent`, whose symbol `ETH` enters
the hash as it is while the claim carries `ceth`. -/
theorem EthereumEventToEthBridgeClaim_denomHash_witness :
    exBurnClaim.DenomHash = exEthEnv.GetDenomHash
        (exEthEvent ClaimType.CLAIM_TYPE_BURN).NetworkDescriptor
        (exEthEnv.EthereumAddressString
          (exEthEnv.Hex (exEthEvent ClaimType.CLAIM_TYPE_BURN).Token))
        ((exEthEvent ClaimType.CLAIM_TYPE_BURN).Decimals.toNat : Int)
        (exEthEvent ClaimType.CLAIM_TYPE_BURN).Name
        (exEthEvent ClaimType.CLAIM_TYPE_BURN).Symbol :=
  (EthereumEventToEthBridgeClaim_denomHash exEthEnv (lit "sifvaloper1")
    (exEthEvent ClaimType.CLAIM_TYPE_BURN) exTranslate exBurnClaim (by decide)).1

/-- C21: `MessageProcessed(prophecyID, prophecyClaims)` is true exactly when
some element of `prophecyClaims` has a `ProphecyID` with the same bytes as
`prophecyID` (a `nil` and an empty identifier are the same byte sequence);
it is false on the empty list, and it gives the same result on every
reordering of the list. -/
theorem MessageProcessed_iff (prophecyID : Bytes) (prophecyClaims : List ProphecyClaimUnique) :
    (MessageProcessed prophecyID prophecyClaims = true ↔
      ∃ prophecyClaim ∈ prophecyClaims, prophecyClaim.ProphecyID = prophecyID) ∧
    MessageProcessed prophecyID [] = false ∧
    ∀ reordered : List ProphecyClaimUnique, reordered.Perm prophecyClaims →
      MessageProcessed prophecyID reordered = MessageProcessed prophecyID prophecyClaims := by
  have hiff : ∀ claims : List ProphecyClaimUnique,
      MessageProcessed prophecyID claims = true ↔
        ∃ prophecyClaim ∈ claims, prophecyClaim.ProphecyID = prophecyID := by
    intro claims
    induction claims with
    | nil => simp [MessageProcessed]
    | cons c cs ih =>
      rw [MessageProcessed]
      by_cases h : bytesCompare prophecyID c.ProphecyID = 0
      · rw [if_pos h]
        have hc : c.ProphecyID = prophecyID := ((bytesCompare_eq_zero_iff _ _).mp h).symm
        simp [hc]
      · rw [if_neg h, ih]
        have hc : ¬ c.ProphecyID = prophecyID :=
          fun hc => h ((bytesCompare_eq_zero_iff _ _).mpr hc.symm)
        simp [hc]
  refine ⟨hiff prophecyClaims, rfl, ?_⟩
  intro reordered hperm
  rw [Bool.eq_iff_iff, hiff, hiff]
  constructor
  · rintro ⟨c, hc, hid⟩
    exact ⟨c, hperm.mem_iff.mp hc, hid⟩
  · rintro ⟨c, hc, hid⟩
    exact ⟨c, hperm.mem_iff.mpr hc, hid⟩

/-- C21, evaluated: the identifier `abc123` is found as the second of three
claims and as the last of the same three in another order, and the empty
identifier matches a claim whose identifier is empty. -/
theorem MessageProcessed_iff_witness :
    MessageProcessed (lit "abc123") [⟨lit "abc124"⟩, ⟨lit "abc123"⟩, ⟨lit "ab"⟩] = true ∧
    MessageProcessed (lit "abc123") [⟨lit "ab"⟩, ⟨lit "abc124"⟩, ⟨lit "abc123"⟩] =
      MessageProcessed (lit "abc123") [⟨lit "abc124"⟩, ⟨lit "abc123"⟩, ⟨lit "ab"⟩] ∧
    MessageProcessed [] [⟨lit "ab"⟩, ⟨[]⟩] = true :=
  ⟨(MessageProcessed_iff (lit "abc123") [⟨lit "abc124"⟩, ⟨lit "abc123"⟩, ⟨lit "ab"⟩]).1.mpr
      ⟨⟨lit "abc123"⟩, by decide, rfl⟩,
   (MessageProcessed_iff (lit "abc123") [⟨lit "abc124"⟩, ⟨lit "abc123"⟩, ⟨lit "ab"⟩]).2.2
      [⟨lit "ab"⟩, ⟨lit "abc124"⟩, ⟨lit "abc123"⟩] (by decide),
   (MessageProcessed_iff [] [⟨lit "ab"⟩, ⟨[]⟩]).1.mpr ⟨⟨[]⟩, by decide, rfl⟩⟩

end Sifnode
